import Mathlib

set_option autoImplicit false
set_option linter.unusedVariables false

/-!
Verification of `cf_data_tools.py`: a shallow embedding of the module's
bulk-file readers, alt-set organizer, k-field reference parser, survey XML
tree walker and export-spec assembler, together with theorems settling the
specified properties.

Modelling conventions:
* a pandas cell is `Cell`: either `null` (NaN) or a string;
* Python exceptions are `Except Unit`; a function whose failures are caught
  by its own blanket `try/except` returns an `Option` result paired with the
  list of diagnostics it printed (diagnostics are modelled as tags);
* Python `int()` is modelled as decimal integer parsing (`String.toInt?`),
  `str(nan)` is the string "nan".
-/

deriving instance DecidableEq for Except

namespace CF

/-- A dataframe cell: `null` models pandas NaN, `str` a string value. -/
inductive Cell where
  | null
  | str (s : String)
  deriving DecidableEq, Repr

/-- Python `str()` on a cell; `str(nan) = "nan"`. -/
def Cell.pyStr : Cell → String
  | .null => "nan"
  | .str s => s

/-- `pd.isnull` on a cell. -/
def Cell.isnull : Cell → Bool
  | .null => true
  | .str _ => false

/-- pandas elementwise equality: NaN compares unequal to everything,
itself included. -/
def pdCellEq (a b : Cell) : Bool :=
  match a, b with
  | Cell.str x, Cell.str y => x = y
  | _, _ => false

/-- Substring containment over characters (Python `pat in s`), structural
so that concrete instances evaluate. -/
def containsSub (pat : List Char) : List Char → Bool
  | [] => pat.isEmpty
  | c :: cs => pat.isPrefixOf (c :: cs) || containsSub pat cs

/-- `str.split(sep)` over characters, with fuel for structural recursion
(the fuel is the input length, which the scan never outruns). -/
def pySplitAux (sep : List Char) : Nat → List Char → List Char → List (List Char)
  | _, [], acc => [acc.reverse]
  | 0, l, acc => [acc.reverse ++ l]
  | fuel + 1, c :: cs, acc =>
    if sep.isPrefixOf (c :: cs) ∧ ¬ sep.isEmpty then
      acc.reverse :: pySplitAux sep fuel ((c :: cs).drop sep.length) []
    else pySplitAux sep fuel cs (c :: acc)

/-- Python `s.split(sep)` for a non-empty separator. -/
def pySplitOn (s sep : String) : List String :=
  (pySplitAux sep.data s.data.length s.data []).map String.mk

/-- Python `s.strip()`: drop surrounding whitespace. -/
def trimWS (s : String) : String :=
  String.mk (((s.data.dropWhile Char.isWhitespace).reverse.dropWhile Char.isWhitespace).reverse)

/-- Decimal digit run to a number. -/
def digitsToNat (l : List Char) : Nat :=
  l.foldl (fun n c => n * 10 + (c.toNat - '0'.toNat)) 0

/-- Python `int()` on a string: surrounding whitespace, an optional sign,
then a non-empty digit run (underscore grouping is out of scope). -/
def pyInt? (s : String) : Option Int :=
  let l := (s.data.dropWhile Char.isWhitespace).reverse.dropWhile Char.isWhitespace
  let l := l.reverse
  let (sign, digits) :=
    match l with
    | '-' :: rest => (true, rest)
    | '+' :: rest => (false, rest)
    | _ => (false, l)
  if ¬ digits.isEmpty ∧ digits.all Char.isDigit then
    some (if sign then - (digitsToNat digits : Int) else (digitsToNat digits : Int))
  else none

/-- `str(int(x))` when `int(x)` succeeds, else `str(x)` — the value
normalisation used by `organize_alt_sets` (`int()` on NaN raises, so a null
cell falls back to `"nan"`). -/
def intNormValue (c : Cell) : String :=
  match c with
  | .null => "nan"
  | .str s =>
    match pyInt? s with
    | some i => toString i
    | none => s

/-- Number of occurrences of the two-character separator `"; "` in a
character list (positions where a `';'` is immediately followed by `' '`). -/
def countSepChars : List Char → Nat
  | [] => 0
  | [_] => 0
  | a :: b :: rest => (if a = ';' ∧ b = ' ' then 1 else 0) + countSepChars (b :: rest)

/-- Number of occurrences of the separator `"; "` in a string. -/
def countSep (s : String) : Nat := countSepChars s.data

/-- `pandas.Series.unique`: deduplicate, keeping first-occurrence order. -/
def uniqueKeep {α : Type} [DecidableEq α] (l : List α) : List α :=
  l.foldl (fun acc x => if x ∈ acc then acc else acc ++ [x]) []

/-! ## `organize_alt_sets` (cf_data_tools.py lines 509-645)

The input table (one row per alternative) is modelled by the four columns
the function reads: set name, set number, label (`InSurvey`) and export
value (`ExportValue`). -/

/-- One row of the alt-set table as consumed by `organize_alt_sets`. -/
structure AltRow where
  name : Cell
  number : Cell
  label : Cell
  value : Cell
  deriving DecidableEq, Repr

/-- One output row of `organize_alt_sets`. -/
structure AltOut where
  alt_set_name : Cell
  alt_set_number : String
  alt_set_labels : String
  alt_set_values : String
  deriving DecidableEq, Repr

/-- The three per-group accumulator strings of `organize_alt_sets`. -/
structure AltAcc where
  alt_set_number : String
  alt_set_value : String
  alt_set_label : String
  deriving DecidableEq, Repr

/-- The set-number update of one row: assigned (raw cell) only while the
accumulator is still empty and the cell is non-null. -/
def numStep (acc : String) (c : Cell) : String :=
  if acc = "" then
    match c with
    | .null => acc
    | .str s => s
  else acc

/-- The label update of one row: a null cell is skipped only while the
accumulator is still empty; once it is non-empty every cell is appended
after a separator (`str` of a null cell is `"nan"`). -/
def labelStep (acc : String) (c : Cell) : String :=
  if acc = "" then
    match c with
    | .null => acc
    | .str s => s
  else acc ++ "; " ++ c.pyStr

/-- One iteration of the inner row loop of `organize_alt_sets`.  The first
state component is the Python local `value`, which survives across rows and
groups; reading it before any assignment is a NameError (`Except.error`),
caught by the blanket guard of the whole function.  Note the source places
`alt_set_value = value` outside the `pd.isnull` test, so a null value cell
met while the accumulator is still empty re-uses the stale `value`. -/
def organizeAltRow (st : Option String × AltAcc) (row : AltRow) :
    Except Unit (Option String × AltAcc) := do
  let (value, acc) := st
  let accNum := numStep acc.alt_set_number row.number
  let (value2, accVal) ←
    if acc.alt_set_value = "" then
      match row.value with
      | .null =>
        match value with
        | none => Except.error ()
        | some v => pure (some v, v)
      | .str s => pure (some (intNormValue (.str s)), intNormValue (.str s))
    else
      pure (some (intNormValue row.value), acc.alt_set_value ++ "; " ++ intNormValue row.value)
  let accLab := labelStep acc.alt_set_label row.label
  pure (value2, ⟨accNum, accVal, accLab⟩)

/-- The inner loop of `organize_alt_sets` over the rows of one set-name
group, starting from empty accumulators and the incoming `value` binding. -/
def organizeAltGroup (value : Option String) (rows : List AltRow) :
    Except Unit (Option String × AltAcc) :=
  rows.foldlM organizeAltRow (value, ⟨"", "", ""⟩)

/-- One iteration of the outer set-name loop: select the rows whose name
cell equals (pandas-wise) the current name, run the inner loop, append the
collected output row. -/
def organizeNameStep (table : List AltRow) (st : Option String × List AltOut) (nm : Cell) :
    Except Unit (Option String × List AltOut) := do
  let (value, outs) := st
  let rows := table.filter (fun r => pdCellEq r.name nm)
  let (value2, acc) ← organizeAltGroup value rows
  pure (value2, outs ++ [⟨nm, acc.alt_set_number, acc.alt_set_label, acc.alt_set_value⟩])

/-- `organize_alt_sets`: group the table by set name (first-occurrence
order, as `unique()` yields), concatenate values and labels per group, and
return one output row per distinct set name.  Any uncaught Python error in
the loop (the stale-`value` NameError) is caught by the blanket guard,
which prints and returns `None`. -/
def organize_alt_sets (table : List AltRow) : Option (List AltOut) :=
  let names := uniqueKeep (table.map (·.name))
  match names.foldlM (organizeNameStep table) (none, []) with
  | .ok (_, outs) => some outs
  | .error _ => none

/-- Number of rows of a group whose label cell is non-null (the quantity the
specification counts). -/
def nonNullLabelCount (rows : List AltRow) : Nat :=
  (rows.filter (fun r => ¬ r.label.isnull)).length

/-! ## `parse_k_fields` (cf_data_tools.py lines 801-912) -/

/-- Python `s.strip(c)`: remove every leading and trailing occurrence of `c`. -/
def pyStripChar (c : Char) (s : String) : String :=
  String.mk (((s.data.dropWhile (· = c)).reverse.dropWhile (· = c)).reverse)

/-- A regex word character (`\w`, modelled as ASCII alphanumeric or
underscore). -/
def wordChar (c : Char) : Bool := c.isAlphanum || c = '_'

/-- `re.findall(p + "_\w+", s)` for a one-character prefix `p`:
left-to-right, non-overlapping, greedy matches of the prefix character
followed by an underscore and a non-empty run of word characters; where no
match starts, the scan advances one character. -/
def findallAux (p : Char) : Nat → List Char → List String
  | _, [] => []
  | _, [_] => []
  | 0, _ => []
  | fuel + 1, c :: c2 :: cs2 =>
    if c = p ∧ c2 = '_' then
      let run := cs2.takeWhile wordChar
      if run.isEmpty then findallAux p fuel (c2 :: cs2)
      else String.mk (c :: c2 :: run) :: findallAux p fuel (cs2.drop run.length)
    else findallAux p fuel (c2 :: cs2)

/-- `re.findall` entry point (the fuel is the scan length, which the
non-overlapping scan never outruns). -/
def findallPrefix (p : Char) (l : List Char) : List String :=
  findallAux p l.length l

/-- One row of the k-field table as consumed by `parse_k_fields`: the
`# Key` and `Calculation` columns. -/
structure KRow where
  key : Cell
  calculation : Cell
  deriving DecidableEq, Repr

/-- All field-like tokens extracted from one calculation text:
`q_` matches, then `e_`, `a_`, `k_` matches, concatenated in that order. -/
def kFieldMatches (calcText : String) : List String :=
  findallPrefix 'q' calcText.data ++ findallPrefix 'e' calcText.data ++
    findallPrefix 'a' calcText.data ++ findallPrefix 'k' calcText.data

/-- Python dict assignment `d[k] = v`: overwrite in place when the key is
present, else append (dicts preserve insertion order). -/
def dictInsert (d : List (String × List String)) (k : String) (v : List String) :
    List (String × List String) :=
  if d.any (fun p => p.1 = k) then d.map (fun p => if p.1 = k then (k, v) else p)
  else d ++ [(k, v)]

/-- The key under which a k-field row is stored: `str(row[# Key]).strip(space)`. -/
def kRowKey (row : KRow) : String := pyStripChar ' ' row.key.pyStr

/-- The `k_field_dict` built by the first loop of `parse_k_fields`. -/
def kFieldDict (rows : List KRow) : List (String × List String) :=
  rows.foldl (fun d row => dictInsert d (kRowKey row) (kFieldMatches row.calculation.pyStr)) []

/-- The list comprehension `[i.strip(space) for i in keys]`: a NaN key has
no `.strip`, so it raises (AttributeError), caught by the blanket guard. -/
def stripAll : List Cell → Except Unit (List String)
  | [] => Except.ok []
  | Cell.null :: _ => Except.error ()
  | Cell.str s :: rest =>
    match stripAll rest with
    | Except.error e => Except.error e
    | Except.ok l => Except.ok (pyStripChar ' ' s :: l)

/-- `parse_k_fields`: build the per-k-field token dict, build the stripped
unique key universe `e + q + a + k`, and emit one `(k-field, field)` edge
for every universe field that occurs among a k-field's extracted tokens.
Any raised error is caught by the blanket guard (print, return `None`). -/
def parse_k_fields (df_k : List KRow) (df_q df_e df_a : List Cell) :
    Option (List (String × String)) :=
  let d := kFieldDict df_k
  match stripAll (uniqueKeep df_q), stripAll (uniqueKeep df_e),
      stripAll (uniqueKeep df_a), stripAll (uniqueKeep (df_k.map (·.key))) with
  | .ok q_field_list, .ok e_field_list, .ok a_field_list, .ok k_field_list =>
    let all_list := e_field_list ++ q_field_list ++ a_field_list ++ k_field_list
    some (d.flatMap (fun p => (all_list.filter (fun f => f ∈ p.2)).map (fun f => (p.1, f))))
  | _, _, _, _ => none

/-- The edge set denoted by a `parse_k_fields` result. -/
def edgeFinset (r : Option (List (String × String))) : Option (Finset (String × String)) :=
  r.map List.toFinset

/-! ## The survey XML tree walker of `create_survey_spec`
(cf_data_tools.py lines 918-1146) -/

/-- The XML attributes the walker reads off an element; an absent attribute
is `none` and `node.attrib.get(a, default)` supplies the default. -/
structure NodeAttrs where
  text : Option String
  type : Option String
  field : Option String
  condition : Option String
  name : Option String
  deriving DecidableEq, Repr

/-- An XML element: its attributes and children. -/
inductive XTree where
  | node (attrs : NodeAttrs) (children : List XTree)
  deriving Repr

/-- `iterparse` event phase (`stop` is the `end` event). -/
inductive Phase where
  | start
  | stop
  deriving DecidableEq, Repr

/-- The event stream `iterparse(path, events=[start, end])` produces for an
element: its start event, the events of its children in order, its end
event. -/
def xEvents : XTree → List (Phase × NodeAttrs)
  | .node a cs =>
    (Phase.start, a) :: (cs.attach.map (fun c => xEvents c.1)).flatten ++ [(Phase.stop, a)]
  decreasing_by
    simp_wf
    have h := List.sizeOf_lt_of_mem c.2
    omega

/-- One record of the walker output (one per start event, the state
snapshot at emission). -/
structure SurveyRec where
  xml_node_number : Nat
  xml_node_depth : Int
  survey_page_number : Nat
  group_name : String
  group_text : String
  group_condition : String
  type : String
  name : String
  field : String
  question_text : String
  condition : String
  deriving DecidableEq, Repr

/-- A value one of the write-only Python group locals can hold (an int or a
string). -/
inductive PyVal where
  | int (n : Int)
  | str (s : String)
  deriving DecidableEq, Repr

/-- The mutable locals of the iterparse loop.  `Option` marks locals that
are unbound until their first assignment; reading an unbound one is a
NameError. -/
structure WalkState where
  page_num : Nat
  xml_node_num : Nat
  xml_nestingroup_depth : Int
  xml_group_flag : Bool
  group_name : Option String
  group_condition : Option String
  group_node_num : Option PyVal
  group_type : Option String
  group_text : Option String
  group_depth : Option Int
  question_text : Option String
  node_text : Option String
  node_type : Option String
  node_field : Option String
  node_condition : Option String
  node_name : Option String
  output : List SurveyRec
  deriving DecidableEq, Repr

/-- Initial state of the walk: page 1, depth 0, node counter 0, no group,
every other local unbound. -/
def walkInit : WalkState :=
  { page_num := 1, xml_node_num := 0, xml_nestingroup_depth := 0, xml_group_flag := false,
    group_name := none, group_condition := none, group_node_num := none, group_type := none,
    group_text := none, group_depth := none, question_text := none, node_text := none,
    node_type := none, node_field := none, node_condition := none, node_name := none,
    output := [] }

/-- `node.attrib.get(a, "NA")`. -/
def getNA (o : Option String) : String := o.getD "NA"

/-- Reading a Python local: NameError when it was never assigned. -/
def ofOpt {α : Type} (o : Option α) : Except Unit α :=
  match o with
  | none => Except.error ()
  | some x => Except.ok x

/-- Python list indexing with negative-index wrap-around; out of range
raises IndexError. -/
def pyIndex {α : Type} (l : List α) (i : Int) : Except Unit α :=
  if 0 ≤ (if i < 0 then (l.length : Int) + i else i) then
    match l.get? (if i < 0 then (l.length : Int) + i else i).toNat with
    | some x => Except.ok x
    | none => Except.error ()
  else Except.error ()

/-- The node types whose start event captures the text attribute as
question text (`types` in the source). -/
def surveyTypes : List String := ["CHOOSE_MANY", "GRID", "EXPLANATION"]

/-- The eight locals the group if/elif chain of the loop assigns. -/
structure GroupUpdate where
  gName : Option String
  gCond : Option String
  gNodeNum : Option PyVal
  gType : Option String
  gText : Option String
  gDepth : Option Int
  gFlag : Bool
  qt : Option String
  deriving DecidableEq, Repr

/-- The group if/elif chain: capture attributes on a GROUP start; while not
in a group, reset the group locals and the question text to the sentinel;
on a GROUP end inside a group, clear the flag and reset the question text;
otherwise leave everything. -/
def groupLogic (st : WalkState) (node : NodeAttrs) (phase : Phase) (depth : Int) : GroupUpdate :=
  if getNA node.type = "GROUP" ∧ phase = Phase.start then
    ⟨some (getNA node.name), some (getNA node.condition),
      some (PyVal.int (st.xml_node_num : Int)), some (getNA node.type), some (getNA node.text),
      some depth, true, st.question_text⟩
  else if st.xml_group_flag = false then
    ⟨some "NA", some "NA", some (PyVal.str "NA"), some "NA", some "NA", st.group_depth,
      st.xml_group_flag, some "NA"⟩
  else if getNA node.type = "GROUP" ∧ st.xml_group_flag ∧ phase = Phase.stop then
    ⟨st.group_name, st.group_condition, st.group_node_num, st.group_type, st.group_text,
      st.group_depth, false, some "NA"⟩
  else
    ⟨st.group_name, st.group_condition, st.group_node_num, st.group_type, st.group_text,
      st.group_depth, st.xml_group_flag, st.question_text⟩

/-- The question-text rule sequence up to (not including) the ALT_COLUMN
rule, in source order (later rules override): capture the text attribute on
a start of a CHOOSE_MANY/GRID/EXPLANATION node, reset on its end unless it
is an EXPLANATION, capture the name attribute on an ALT_ENTRY start. -/
def qtPre (st : WalkState) (node : NodeAttrs) (phase : Phase) (depth : Int) : Option String :=
  let qt1 := (groupLogic st node phase depth).qt
  let qt2 := if getNA node.type ∈ surveyTypes ∧ phase = Phase.start then some (getNA node.text)
    else qt1
  let qt3 :=
    if getNA node.type ∈ surveyTypes ∧ phase = Phase.stop ∧ ¬ getNA node.type = "EXPLANATION"
    then some "NA" else qt2
  if getNA node.type = "ALT_ENTRY" ∧ phase = Phase.start then some (getNA node.name) else qt3

/-- The last question-text rule: on any event (start or end alike) of a
node whose type attribute is ALT_COLUMN, look at `output[xml_node_num - 1]`
(IndexError on an empty output) and, when that previously emitted record is
a SIMPLE_QUESTION, derive the question text from its field. -/
def altColumnRule (st : WalkState) (node : NodeAttrs) (qt4 : Option String) :
    Except Unit (Option String) :=
  if getNA node.type = "ALT_COLUMN" then do
    let prev ← pyIndex st.output ((st.xml_node_num : Int) - 1)
    if prev.type = "SIMPLE_QUESTION" then do
      let prev2 ← pyIndex st.output ((st.xml_node_num : Int) - 1)
      pure (some ("q-field text - " ++ prev2.field))
    else pure qt4
  else pure qt4

/-- One iteration of the iterparse loop of `create_survey_spec`, following
the source order: depth update, attribute capture on start, page-break
counting, the group if/elif chain, the question-text rule sequence (later
rules override earlier ones), then emission of one record per start event.
NameError (unbound local) and IndexError (`output[-1]` on an empty output)
are `Except.error`, caught by the blanket guard of `create_survey_spec`. -/
def walkStep (st : WalkState) (ev : Phase × NodeAttrs) : Except Unit WalkState := do
  let (phase, node) := ev
  let depth := if phase = Phase.start then st.xml_nestingroup_depth + 1
    else st.xml_nestingroup_depth - 1
  let node_text := if phase = Phase.start then some (getNA node.text) else st.node_text
  let node_type := if phase = Phase.start then some (getNA node.type) else st.node_type
  let node_field := if phase = Phase.start then some (getNA node.field) else st.node_field
  let node_condition :=
    if phase = Phase.start then some (getNA node.condition) else st.node_condition
  let node_name := if phase = Phase.start then some (getNA node.name) else st.node_name
  let page := if getNA node.type = "PAGE_BREAK" ∧ phase = Phase.start then st.page_num + 1
    else st.page_num
  let gu := groupLogic st node phase depth
  let qt5 ← altColumnRule st node (qtPre st node phase depth)
  if phase = Phase.start then do
    let gN ← ofOpt gu.gName
    let gT ← ofOpt gu.gText
    let gC ← ofOpt gu.gCond
    let nTy ← ofOpt node_type
    let nNa ← ofOpt node_name
    let nFi ← ofOpt node_field
    let qtv ← ofOpt qt5
    let nCo ← ofOpt node_condition
    let outRec : SurveyRec :=
      ⟨st.xml_node_num, depth, page, gN, gT, gC, nTy, nNa, nFi, qtv, nCo⟩
    pure { page_num := page, xml_node_num := st.xml_node_num + 1,
           xml_nestingroup_depth := depth, xml_group_flag := gu.gFlag, group_name := gu.gName,
           group_condition := gu.gCond, group_node_num := gu.gNodeNum, group_type := gu.gType,
           group_text := gu.gText, group_depth := gu.gDepth, question_text := qt5,
           node_text := node_text, node_type := node_type, node_field := node_field,
           node_condition := node_condition, node_name := node_name,
           output := st.output ++ [outRec] }
  else
    pure { page_num := page, xml_node_num := st.xml_node_num,
           xml_nestingroup_depth := depth, xml_group_flag := gu.gFlag, group_name := gu.gName,
           group_condition := gu.gCond, group_node_num := gu.gNodeNum, group_type := gu.gType,
           group_text := gu.gText, group_depth := gu.gDepth, question_text := qt5,
           node_text := node_text, node_type := node_type, node_field := node_field,
           node_condition := node_condition, node_name := node_name, output := st.output }

/-- Run the iterparse loop over an event stream. -/
def runWalker (evs : List (Phase × NodeAttrs)) : Except Unit WalkState :=
  evs.foldlM walkStep walkInit

/-- `select_question_text` from the source: prefer the q-field label only
when the traversal text is the sentinel and the label is not. -/
def select_question_text (df_column_1 df_column_2 : String) : String :=
  if df_column_1 = "NA" ∧ ¬ df_column_2 = "NA" then df_column_2 else df_column_1

/-- `fillna("NA")` on one cell. -/
def cellFillNA (c : Cell) : String :=
  match c with
  | Cell.null => "NA"
  | Cell.str s => s

/-- The left merge of the walker output onto the q-field
(`# Key`, `In survey`) pairs followed by `fillna` and the row-wise
`select_question_text`: every record yields one row per matching key (or a
single row with an "NA" label when no key matches); a null label cell is
filled to "NA". -/
def addSurveyQuestionText (qtab : List (Cell × Cell)) (recs : List SurveyRec) :
    List (SurveyRec × String) :=
  recs.flatMap (fun r =>
    match qtab.filter (fun p => p.1 = Cell.str r.field) with
    | [] => [(r, select_question_text r.question_text "NA")]
    | m :: ms => (m :: ms).map (fun p => (r, select_question_text r.question_text (cellFillNA p.2))))

/-- The In-survey label "looked up" for a field as the specification words
it: present only when a row with that key exists and its label cell is
non-null. -/
def lookupInSurvey (qtab : List (Cell × Cell)) (field : String) : Option String :=
  match qtab.find? (fun p => p.1 = Cell.str field) with
  | some p =>
    match p.2 with
    | Cell.null => none
    | Cell.str s => some s
  | none => none

/-- The final question text as the specification words it: the looked-up
label when the traversal text is the sentinel and a label is present,
otherwise the traversal text. -/
def specSurveyQuestionText (qtab : List (Cell × Cell)) (field qt : String) : String :=
  match lookupInSurvey qtab field with
  | some s => if qt = "NA" then s else qt
  | none => qt

/-- Count of PAGE_BREAK records in a record list. -/
def countPB (recs : List SurveyRec) : Nat :=
  (recs.filter (fun r => r.type = "PAGE_BREAK")).length

/-- The page-number invariant the walker maintains: the page counter is one
more than the number of PAGE_BREAK records emitted, and every emitted
record's page number is one more than the number of PAGE_BREAK records up
to and including it. -/
def pageInv (st : WalkState) : Prop :=
  st.page_num = 1 + countPB st.output ∧
  ∀ i r2, st.output[i]? = some r2 →
    r2.survey_page_number = 1 + countPB (st.output.take (i + 1))

/-! ## Bulk-file readers (cf_data_tools.py lines 165-733)

Each reader checks `os.path.isfile`, wraps its whole body in a blanket
`try/except` that prints and returns `None`, and otherwise returns a
dataframe.  Printed diagnostics are modelled as tags naming the print
site. -/

/-- One diagnostic print statement, identified by its site. -/
inductive Diag where
  | qPathInvalid
  | qReadError
  | ePathInvalid
  | eReadError
  | aPathInvalid
  | aReadError
  | kPathInvalid
  | kReadError
  | altPathInvalid
  | altReadError
  | exportsPathInvalid
  | exportsReadError
  | xmlPathInvalid
  | surveySpecError
  | organizeError
  deriving DecidableEq, Repr

/-- The file system: text files as line lists (`none` = no such file);
`xml p` is the tree `iterparse` yields for path `p` (`none` = parse
failure). -/
structure FS where
  lines : String → Option (List String)
  xml : String → Option XTree

/-- `os.path.isfile`. -/
def isfile (fs : FS) (path : String) : Bool := (fs.lines path).isSome

/-- A dataframe: column names and rows of cells. -/
structure DF where
  cols : List String
  rows : List (List Cell)
  deriving DecidableEq, Repr

/-- A parsed text cell: pandas turns an empty field into NaN. -/
def mkCell (s : String) : Cell := if s = "" then Cell.null else Cell.str s

/-- `pd.read_csv(path, sep=delim, skiprows=n).reset_index()` modelled as
plain splitting: drop the skipped lines, the next line is the header, the
rest are rows; `reset_index` prepends an `index` column holding the row
number.  No line left at all raises (EmptyDataError).  (Dtype inference and
ragged-row recovery of the real parser are out of scope; every cell is a
string or NaN.) -/
def readCsv (ls : List String) (delim : Char) (skiprows : Nat) : Except Unit DF :=
  match ls.drop skiprows with
  | [] => Except.error ()
  | header :: rest =>
    Except.ok
      { cols := "index" :: pySplitOn header (String.mk [delim]),
        rows := rest.enum.map (fun p =>
          Cell.str (toString p.1) :: (pySplitOn p.2 (String.mk [delim])).map mkCell) }

/-- The per-column `.str.strip()` loop shared by the readers and
`strip_cols`: trim every string cell, leave NaN cells alone. -/
def strip_cols (df : DF) : DF :=
  { cols := df.cols,
    rows := df.rows.map (fun r => r.map (fun c =>
      match c with
      | Cell.null => Cell.null
      | Cell.str s => Cell.str (trimWS s))) }

/-- `read_q_fields`: check the path, `read_csv` with one skipped row, strip
whitespace; any body failure prints and returns `None`. -/
def read_q_fields (fs : FS) (path : String) (delim : Char) : Option DF × List Diag :=
  match fs.lines path with
  | none => (none, [Diag.qPathInvalid])
  | some ls =>
    match readCsv ls delim 1 with
    | Except.ok df => (some (strip_cols df), [])
    | Except.error _ => (none, [Diag.qReadError])

/-- `read_e_fields` (same shape as `read_q_fields`). -/
def read_e_fields (fs : FS) (path : String) (delim : Char) : Option DF × List Diag :=
  match fs.lines path with
  | none => (none, [Diag.ePathInvalid])
  | some ls =>
    match readCsv ls delim 1 with
    | Except.ok df => (some (strip_cols df), [])
    | Except.error _ => (none, [Diag.eReadError])

/-- `read_a_fields` (same shape as `read_q_fields`). -/
def read_a_fields (fs : FS) (path : String) (delim : Char) : Option DF × List Diag :=
  match fs.lines path with
  | none => (none, [Diag.aPathInvalid])
  | some ls =>
    match readCsv ls delim 1 with
    | Except.ok df => (some (strip_cols df), [])
    | Except.error _ => (none, [Diag.aReadError])

/-- Substring test (`pat in line`). -/
def strContains (s pat : String) : Bool := containsSub pat.data s.data

/-- The `row_count` loop of `read_k_fields`: number of lines consumed up to
and including the first line containing the marker (all lines when the
marker never occurs). -/
def markerCount (marker : String) : List String → Nat
  | [] => 0
  | l :: rest => 1 + (if strContains l marker then 0 else markerCount marker rest)

/-- `read_k_fields`: scan for the `%%CalculatedSurveyField` marker, then
`read_csv` from the line after it (the separator is hard-coded to a tab in
the source, ignoring `delim`). -/
def read_k_fields (fs : FS) (path : String) (delim : Char) : Option DF × List Diag :=
  match fs.lines path with
  | none => (none, [Diag.kPathInvalid])
  | some ls =>
    match readCsv ls '\t' (markerCount "%%CalculatedSurveyField" ls) with
    | Except.ok df => (some (strip_cols df), [])
    | Except.error _ => (none, [Diag.kReadError])

/-- The hard-coded alt-set column names. -/
def alt_set_headers : List String :=
  ["AltSetNumber", "AlternativeNumber", "Name", "InSurvey", "InMobile", "InReport",
    "ShortForm", "Description", "Visibility", "SequenceNumber", "NumericValue",
    "ExportValue", "PriorityRaw", "RIColumn", "RIColSpan", "BoxColor", "FontColor",
    "IsOtherOption", "TranslationExplanation"]

/-- The flag loop of `read_alt_sets`: every line strictly after the first
line containing the marker. -/
def linesAfterMarker (marker : String) : List String → List String
  | [] => []
  | l :: rest => if strContains l marker then rest else linesAfterMarker marker rest

/-- `x.strip(space).strip(newline)` applied to every split value. -/
def trimValues (line : String) : List String :=
  (pySplitOn line "\t").map (fun x => pyStripChar '\n' (pyStripChar ' ' x))

/-- One line of the alt-set body: split on tabs, trim, prepend the set
number (the part of the first value before the first underscore), pad with
"NA" up to the column count; more values than columns makes the row
constructor raise. -/
def altSetRow (line : String) : Except Unit (List Cell) :=
  let trimmed := trimValues line
  let alt_set_num := ((pySplitOn (trimmed.headD "") "_").headD "")
  let padded := alt_set_num :: trimmed
  if padded.length ≤ alt_set_headers.length then
    Except.ok ((padded ++ List.replicate (alt_set_headers.length - padded.length) "NA").map
      Cell.str)
  else Except.error ()

/-- `read_alt_sets`: take the lines after the `%%AlternativeDb` marker,
drop the first of them (`pop(0)` raises on an empty list), and parse each
remaining line into a row of the hard-coded columns. -/
def read_alt_sets (fs : FS) (path : String) (delim : Char) : Option DF × List Diag :=
  match fs.lines path with
  | none => (none, [Diag.altPathInvalid])
  | some ls =>
    match linesAfterMarker "%%AlternativeDb" ls with
    | [] => (none, [Diag.altReadError])
    | _ :: rest =>
      match rest.mapM altSetRow with
      | Except.ok rows => (some { cols := alt_set_headers, rows := rows }, [])
      | Except.error _ => (none, [Diag.altReadError])

/-- The column names of the `read_exports` result. -/
def exportsCols : List String :=
  ["Column Number", "Export Number", "Export Name", "Export Fields"]

/-- One iteration of the exports row loop: when the trimmed name cell (index
1; IndexError on a shorter row) equals the wanted export name, split the
field lists at indexes 17 and 18 on " : ", discard empty pieces, and rebuild
`df_exports` from scratch; otherwise keep the previous binding. -/
def exportsRowStep (export_name : String) (df : Option DF) (line : String) :
    Except Unit (Option DF) := do
  let trimmed := trimValues line
  let cell1 ← pyIndex trimmed 1
  if cell1 = export_name then do
    let f17 ← pyIndex trimmed 17
    let f18 ← pyIndex trimmed 18
    let split_fields := (pySplitOn f17 " : " ++ pySplitOn f18 " : ").filter (fun x => ¬ x = "")
    let cell0 ← pyIndex trimmed 0
    pure (some
      { cols := exportsCols,
        rows := split_fields.enum.map (fun p =>
          [Cell.str (toString (p.1 + 1)), Cell.str cell0, Cell.str cell1, Cell.str p.2]) })
  else pure df

/-- The lines before the first `%%EpisodeCondition` marker line. -/
def exports_lines (ls : List String) : List String :=
  ls.takeWhile (fun l => ! strContains l "%%EpisodeCondition")

/-- The body of `read_exports`: the pre-marker lines scanned from the third
one on; when no row ever matches, the final `return df_exports` reads a
never-assigned local (NameError). -/
def read_exports_body (ls : List String) (export_name : String) : Except Unit DF := do
  let df ← ((exports_lines ls).drop 2).foldlM (exportsRowStep export_name) none
  match df with
  | none => Except.error ()
  | some d => pure d

/-- `read_exports`: path check, then the row loop under the blanket guard
(the `delim` parameter is unused by the body, which splits on tabs). -/
def read_exports (fs : FS) (path export_name : String) (delim : Char) :
    Option DF × List Diag :=
  match fs.lines path with
  | none => (none, [Diag.exportsPathInvalid])
  | some ls =>
    match read_exports_body ls export_name with
    | Except.ok df => (some df, [])
    | Except.error _ => (none, [Diag.exportsReadError])

/-! ## `create_survey_spec` assembled (cf_data_tools.py lines 918-1146) -/

/-- `df[[c1, ..., cn]]`: project the named columns in that order; a missing
name is a KeyError, a short row is padded with NaN. -/
def selectCols (df : DF) (cs : List String) : Except Unit DF := do
  let idxs ← cs.mapM (fun c =>
    match df.cols.indexOf? c with
    | some i => Except.ok i
    | none => Except.error ())
  pure { cols := cs, rows := df.rows.map (fun r => idxs.map (fun i => (r.get? i).getD Cell.null)) }

/-- The (`# Key`, `In survey`) pairs of the q-field dataframe, as used for
the merge. -/
def dfKeyLabelPairs (df : DF) : List (Cell × Cell) :=
  df.rows.map (fun r => ((r.get? 0).getD Cell.null, (r.get? 1).getD Cell.null))

/-- `create_survey_spec`: check the path, parse and walk the XML, read the
q-fields, project their key and In-survey columns, and merge the walker
output with them through `select_question_text`.  Every body failure
(unparseable XML, a walker NameError/IndexError, a `None` q-field read, a
missing column) is caught by the blanket guard, which prints and returns
`None`.  The model keeps each record next to its final
`survey_question_text` (the source drops the intermediate text columns). -/
def create_survey_spec (fs : FS) (survey_xml_path q_field_path : String) (delim : Char) :
    Option (List (SurveyRec × String)) × List Diag :=
  if isfile fs survey_xml_path then
    match fs.xml survey_xml_path with
    | none => (none, [Diag.surveySpecError])
    | some tree =>
      match runWalker (xEvents tree) with
      | Except.error _ => (none, [Diag.surveySpecError])
      | Except.ok st =>
        match read_q_fields fs q_field_path '\t' with
        | (none, prints) => (none, prints ++ [Diag.surveySpecError])
        | (some dfq, prints) =>
          match selectCols dfq ["# Key", "In survey"] with
          | Except.error _ => (none, prints ++ [Diag.surveySpecError])
          | Except.ok sub =>
            (some (addSurveyQuestionText (dfKeyLabelPairs sub) st.output), prints)
  else (none, [Diag.xmlPathInvalid])

/-! ## `create_export_spec` (cf_data_tools.py lines 43-160) -/

/-- The straight-line effects of `create_export_spec`: prints accumulate
and an uncaught Python exception aborts. -/
abbrev PyM (α : Type) := ExceptT Unit (StateM (List Diag)) α

/-- Record printed diagnostics. -/
def emit (ds : List Diag) : PyM Unit := ExceptT.lift (modify (fun s => s ++ ds))

/-- Using an absent (`None`) upstream value raises (TypeError). -/
def liftOpt {α : Type} (o : Option α) : PyM α :=
  match o with
  | none => throw ()
  | some a => pure a

/-- Re-raise a modelled Python exception. -/
def liftExc {α : Type} (e : Except Unit α) : PyM α :=
  match e with
  | Except.ok a => pure a
  | Except.error u => throw u

/-- `pd.concat` over dataframes that share one column list. -/
def concatDF (dfs : List DF) : DF :=
  { cols := (dfs.headD { cols := [], rows := [] }).cols, rows := dfs.flatMap (·.rows) }

/-- Column lookup (KeyError when absent). -/
def colIndex (df : DF) (c : String) : Except Unit Nat :=
  match df.cols.indexOf? c with
  | some i => Except.ok i
  | none => Except.error ()

/-- `pd.merge(l, r, how=left, left_on=lk, right_on=rk)`: all columns of
both sides are kept; an unmatched left row gets NaN right cells; NaN keys
match nothing. -/
def mergeLR (l r : DF) (lk rk : String) : Except Unit DF := do
  let li ← colIndex l lk
  let ri ← colIndex r rk
  pure { cols := l.cols ++ r.cols,
         rows := l.rows.flatMap (fun lrow =>
           let ms := r.rows.filter (fun rrow =>
             pdCellEq ((lrow.get? li).getD Cell.null) ((rrow.get? ri).getD Cell.null))
           if ms.isEmpty then [lrow ++ r.cols.map (fun _ => Cell.null)]
           else ms.map (fun rrow => lrow ++ rrow)) }

/-- `pd.merge(l, r, on=k, how=left)`: the key column is kept once. -/
def mergeOn (l r : DF) (k : String) : Except Unit DF := do
  let li ← colIndex l k
  let ri ← colIndex r k
  pure { cols := l.cols ++ (r.cols.take ri ++ r.cols.drop (ri + 1)),
         rows := l.rows.flatMap (fun lrow =>
           let ms := r.rows.filter (fun rrow =>
             pdCellEq ((lrow.get? li).getD Cell.null) ((rrow.get? ri).getD Cell.null))
           if ms.isEmpty then [lrow ++ (r.cols.drop 1).map (fun _ => Cell.null)]
           else ms.map (fun rrow => lrow ++ (rrow.take ri ++ rrow.drop (ri + 1)))) }

/-- `fillna("NA")` over a whole dataframe. -/
def fillNA (df : DF) : DF :=
  { cols := df.cols,
    rows := df.rows.map (fun r => r.map (fun c => Cell.str (cellFillNA c))) }

/-- `pd.to_numeric(col, downcast=integer)` on one column, modelled for
integer-text cells (a cell that parses as no integer raises; NaN is kept). -/
def toNumericCol (df : DF) (c : String) : Except Unit DF := do
  let i ← colIndex df c
  let rows ← df.rows.mapM (fun r =>
    match (r.get? i).getD Cell.null with
    | Cell.null => Except.ok r
    | Cell.str s =>
      match pyInt? s with
      | some n => Except.ok (r.set i (Cell.str (toString n)))
      | none => Except.error ())
  pure { cols := df.cols, rows := rows }

/-- The `organize_alt_sets` dataframe output: name, number, labels, values. -/
def altOutDF (outs : List AltOut) : DF :=
  { cols := ["alt_set_name", "alt_set_number", "alt_set_labels", "alt_set_values"],
    rows := outs.map (fun o =>
      [o.alt_set_name, Cell.str o.alt_set_number, Cell.str o.alt_set_labels,
        Cell.str o.alt_set_values]) }

/-- `organize_alt_sets` called on a reader result: a `None` dataframe (no
`.loc`) or a missing column (KeyError) is caught by its own guard, which
prints and returns `None`; otherwise the four relevant columns feed the
row loop. -/
def organize_alt_sets_df (df : Option DF) : Option (List AltOut) × List Diag :=
  match df with
  | none => (none, [Diag.organizeError])
  | some d =>
    match colIndex d "Name", colIndex d "AltSetNumber", colIndex d "InSurvey",
        colIndex d "ExportValue" with
    | Except.ok ni, Except.ok nui, Except.ok li, Except.ok vi =>
      let table := d.rows.map (fun r =>
        AltRow.mk ((r.get? ni).getD Cell.null) ((r.get? nui).getD Cell.null)
          ((r.get? li).getD Cell.null) ((r.get? vi).getD Cell.null))
      match organize_alt_sets table with
      | some outs => (some outs, [])
      | none => (none, [Diag.organizeError])
    | _, _, _, _ => (none, [Diag.organizeError])

/-- The survey-spec columns used by the assembler, renamed for the join:
(`# Key`, `survey_question_text`). -/
def surveyKeyTextDF (recs : List (SurveyRec × String)) : DF :=
  { cols := ["# Key", "survey_question_text"],
    rows := recs.map (fun p => [Cell.str p.1.field, Cell.str p.2]) }

/-- The final column renames. -/
def renameFinal (df : DF) : DF :=
  { cols := df.cols.map (fun c =>
      if c = "Name" then "Field Name"
      else if c = "survey_question_text" then "Survey Question Text" else c),
    rows := df.rows }

/-- `create_export_spec`.  The try block first overwrites every path
argument with hard-coded file names from the source, then calls the five
readers; the readers never raise (each swallows its own failures), so the
`except` print is dead code.  Everything after the try block is unguarded:
using an absent reader result raises an exception that propagates to the
caller. -/
def create_export_spec (fs : FS)
    (q_path e_path k_path alt_set_path export_path export_name survey_xml_path : String)
    (delim : Char) : List Diag × Except Unit DF :=
  let body : PyM DF := do
    let (df_q, p1) := read_q_fields fs "tms_Q-Fields_Q-Field Details_bulk.txt" '\t'
    emit p1
    let (df_e, p2) := read_e_fields fs "tms_E-Fields.txt" '\t'
    emit p2
    let (df_k, p3) := read_k_fields fs "tms_K-Fields_K-Field Details_bulk.txt" '\t'
    emit p3
    let (df_alt, p4) := read_alt_sets fs "tms_Alt Sets.txt" '\t'
    emit p4
    let (df_export, p5) := read_exports fs "tms_Exports_Export Details_bulk.txt"
      "ECSC Daily File - PLS (with survey data flag)" '\t'
    emit p5
    let dfq ← liftOpt df_q
    let df_q_subset ← liftExc (selectCols dfq ["# Key", "Name", "AlternativeSet"])
    let dfe ← liftOpt df_e
    let df_e_subset ← liftExc (selectCols dfe ["# Key", "Name", "AlternativeSet"])
    let dfk ← liftOpt df_k
    let df_k_subset ← liftExc (selectCols dfk ["# Key", "Name", "AlternativeSet"])
    let df_combined := strip_cols (concatDF [df_q_subset, df_e_subset, df_k_subset])
    let dfexp ← liftOpt df_export
    let df_export_s := strip_cols dfexp
    let df_joined ← liftExc (mergeLR df_export_s df_combined "Export Fields" "# Key")
    let (alt_out, altPrints) := organize_alt_sets_df df_alt
    emit altPrints
    let df_alt_list ← liftOpt alt_out
    let df_alt_set ← liftExc (toNumericCol (altOutDF df_alt_list) "alt_set_number")
    let df_alt_set_joined ← liftExc (mergeLR df_joined df_alt_set "AlternativeSet" "alt_set_number")
    let (survey, surveyPrints) := create_survey_spec fs
      "/Users/kjohnson/Documents/Projects/TMNA/2018_01_16_Survey_XML_Parser/TMNA_PLS.xml"
      "tms_Q-Fields_Q-Field Details_bulk.txt" '\t'
    emit surveyPrints
    let surveyRecs ← liftOpt survey
    let df_merged ← liftExc (mergeOn df_alt_set_joined (surveyKeyTextDF surveyRecs) "# Key")
    let df_merged := fillNA df_merged
    let df_export_spec ← liftExc (selectCols df_merged
      ["Column Number", "Export Number", "Export Name", "survey_question_text", "Name",
        "Export Fields", "alt_set_name", "alt_set_labels", "alt_set_values"])
    pure (renameFinal df_export_spec)
  let rp := (body.run).run []
  (rp.2, rp.1)

/-! ## Concrete instances used by the theorems below -/

/-- A file system with no files. -/
def fsEmpty : FS := ⟨fun _ => none, fun _ => none⟩

/-- An element with no attributes. -/
def attrsNone : NodeAttrs := ⟨none, none, none, none, none⟩

/-- An element carrying only a type attribute. -/
def attrsType (t : String) : NodeAttrs := ⟨none, some t, none, none, none⟩

/-- The event stream of a demo document: a root with a PAGE_BREAK leaf and
a plain leaf. -/
def demoEvs : List (Phase × NodeAttrs) :=
  [(Phase.start, attrsNone), (Phase.start, attrsType "PAGE_BREAK"),
    (Phase.stop, attrsType "PAGE_BREAK"), (Phase.start, attrsNone), (Phase.stop, attrsNone),
    (Phase.stop, attrsNone)]

/-- The walker state at the end of the demo document. -/
def demoSt : WalkState :=
  match runWalker demoEvs with
  | Except.ok st => st
  | Except.error _ => walkInit

/-- The first record the demo walk emits (the root, page 1). -/
def rec0demo : SurveyRec := ⟨0, 1, 1, "NA", "NA", "NA", "NA", "NA", "NA", "NA", "NA"⟩

/-- The second record the demo walk emits (the PAGE_BREAK, page 2). -/
def rec1demo : SurveyRec := ⟨1, 2, 2, "NA", "NA", "NA", "PAGE_BREAK", "NA", "NA", "NA", "NA"⟩

/-- A SIMPLE_QUESTION element referencing field q_9. -/
def sqAttrs : NodeAttrs := ⟨none, some "SIMPLE_QUESTION", some "q_9", none, none⟩

/-- A GROUP element named G. -/
def groupAttrs : NodeAttrs := ⟨none, some "GROUP", none, none, some "G"⟩

/-- The event prefix root, GROUP, ALT_COLUMN, SIMPLE_QUESTION start, then
the SIMPLE_QUESTION end: the walker state that next receives the end event
of the ALT_COLUMN element. -/
def c4PrefixEvs : List (Phase × NodeAttrs) :=
  [(Phase.start, attrsNone), (Phase.start, groupAttrs), (Phase.start, attrsType "ALT_COLUMN"),
    (Phase.start, sqAttrs), (Phase.stop, sqAttrs)]

/-- The state reached after `c4PrefixEvs`. -/
def c4St : WalkState :=
  match runWalker c4PrefixEvs with
  | Except.ok st => st
  | Except.error _ => walkInit

/-- The state after additionally feeding the ALT_COLUMN end event. -/
def c4StAfter : WalkState :=
  match walkStep c4St (Phase.stop, attrsType "ALT_COLUMN") with
  | Except.ok st => st
  | Except.error _ => walkInit

/-- The specification's alt-set scenario table. -/
def yesNoTable : List AltRow :=
  [⟨Cell.str "YesNo", Cell.str "1", Cell.str "Y", Cell.str "1"⟩,
    ⟨Cell.str "YesNo", Cell.str "1", Cell.str "N", Cell.str "2"⟩]

/-- A one-group table whose second label cell is null. -/
def c2CexTable : List AltRow :=
  [⟨Cell.str "s", Cell.str "1", Cell.str "A", Cell.str "1"⟩,
    ⟨Cell.str "s", Cell.str "1", Cell.null, Cell.str "2"⟩]

/-- An exports file with two data rows, neither named "Wanted". -/
def exportsFS : FS :=
  ⟨fun p => if p = "exp.txt" then some ["h1", "h2", "1\tOther\tx", "2\tAnother\ty"] else none,
    fun _ => none⟩

/-! ## Theorems -/

/-- C8: for a k-field table with the single row (k_1, "q_5 + q_6 * 2") and
a universe whose q-field keys are q_5, q_6, q_7 (no e- or a-fields),
`parse_k_fields` returns exactly the edges (k_1, q_5) and (k_1, q_6) and no
edge to q_7. -/
def yesNoOut : AltOut := ⟨Cell.str "YesNo", "1", "Y; N", "1; 2"⟩

theorem parse_k_fields_scenario :
    parse_k_fields [⟨Cell.str "k_1", Cell.str "q_5 + q_6 * 2"⟩]
        [Cell.str "q_5", Cell.str "q_6", Cell.str "q_7"] [] [] =
      some [("k_1", "q_5"), ("k_1", "q_6")] := by
  decide

/-- C7 counterexample: with two k-field rows sharing the key k_1 (the dict
keeps only the last row's tokens), swapping the row order changes the
returned edge set, refuting order-independence for arbitrary tables. -/
theorem parse_k_fields_order_cex :
    parse_k_fields [⟨Cell.str "k_1", Cell.str "q_5"⟩, ⟨Cell.str "k_1", Cell.str "q_6"⟩]
        [Cell.str "q_5", Cell.str "q_6"] [] [] = some [("k_1", "q_6")] ∧
    parse_k_fields [⟨Cell.str "k_1", Cell.str "q_6"⟩, ⟨Cell.str "k_1", Cell.str "q_5"⟩]
        [Cell.str "q_5", Cell.str "q_6"] [] [] = some [("k_1", "q_5")] ∧
    ¬ edgeFinset (parse_k_fields [⟨Cell.str "k_1", Cell.str "q_5"⟩,
          ⟨Cell.str "k_1", Cell.str "q_6"⟩] [Cell.str "q_5", Cell.str "q_6"] [] []) =
        edgeFinset (parse_k_fields [⟨Cell.str "k_1", Cell.str "q_6"⟩,
          ⟨Cell.str "k_1", Cell.str "q_5"⟩] [Cell.str "q_5", Cell.str "q_6"] [] []) := by
  refine ⟨by decide, by decide, by decide⟩

/-- C2 counterexample: in a one-group table whose labels are ("A", null),
the organized label string is "A; nan" with one separator occurrence,
although only one row has a non-null label cell (the claim predicts 1 - 1 =
0 occurrences): a null cell after the first non-null one is appended, not
skipped. -/
theorem organize_alt_sets_sep_cex :
    organize_alt_sets c2CexTable =
      some [⟨Cell.str "s", "1", "A; nan", "1; 2"⟩] ∧
    nonNullLabelCount (c2CexTable.filter (fun r => pdCellEq r.name (Cell.str "s"))) = 1 ∧
    ¬ countSep "A; nan" =
        nonNullLabelCount (c2CexTable.filter (fun r => pdCellEq r.name (Cell.str "s"))) - 1 := by
  refine ⟨by decide, by decide, by decide⟩

/-- C6: on a path that names no existing file, each of the six readers
prints its invalid-path diagnostic and returns `None`; the readers' return
type carries no exception, so none escapes to the caller. -/
theorem readers_missing_path (fs : FS) (path export_name : String) (delim : Char)
    (h : fs.lines path = none) :
    read_q_fields fs path delim = (none, [Diag.qPathInvalid]) ∧
    read_e_fields fs path delim = (none, [Diag.ePathInvalid]) ∧
    read_a_fields fs path delim = (none, [Diag.aPathInvalid]) ∧
    read_k_fields fs path delim = (none, [Diag.kPathInvalid]) ∧
    read_alt_sets fs path delim = (none, [Diag.altPathInvalid]) ∧
    read_exports fs path export_name delim = (none, [Diag.exportsPathInvalid]) := by
  simp [read_q_fields, read_e_fields, read_a_fields, read_k_fields, read_alt_sets,
    read_exports, h]

/-- Witness for C6 at a concrete empty file system. -/
theorem readers_missing_path_witness :
    read_q_fields fsEmpty "missing.txt" '\t' = (none, [Diag.qPathInvalid]) ∧
    read_e_fields fsEmpty "missing.txt" '\t' = (none, [Diag.ePathInvalid]) ∧
    read_a_fields fsEmpty "missing.txt" '\t' = (none, [Diag.aPathInvalid]) ∧
    read_k_fields fsEmpty "missing.txt" '\t' = (none, [Diag.kPathInvalid]) ∧
    read_alt_sets fsEmpty "missing.txt" '\t' = (none, [Diag.altPathInvalid]) ∧
    read_exports fsEmpty "missing.txt" "X" '\t' = (none, [Diag.exportsPathInvalid]) :=
  readers_missing_path fsEmpty "missing.txt" "X" '\t' rfl

/-- Helper: when no scanned line's trimmed name cell equals the wanted
export name, the exports row loop either raises (a short row) or leaves
`df_exports` unbound. -/
theorem exportsLoop_no_match (export_name : String) :
    ∀ lines2 : List String,
      (∀ l ∈ lines2, ¬ pyIndex (trimValues l) 1 = Except.ok export_name) →
      lines2.foldlM (exportsRowStep export_name) (none : Option DF) = Except.error () ∨
        lines2.foldlM (exportsRowStep export_name) (none : Option DF) = Except.ok none := by
  intro lines2
  induction lines2 with
  | nil => intro _; right; rfl
  | cons l rest ih =>
    intro hno
    rw [List.foldlM_cons]
    rcases hc : pyIndex (trimValues l) 1 with u | c
    · left
      obtain ⟨⟩ := u
      have hstep : exportsRowStep export_name none l = Except.error () := by
        simp only [exportsRowStep, hc]
        rfl
      rw [hstep]
      rfl
    · have hne : ¬ c = export_name := by
        intro he
        exact hno l (List.mem_cons_self l rest) (he ▸ hc)
      have hstep : exportsRowStep export_name none l = Except.ok none := by
        simp only [exportsRowStep, hc]
        simp only [Bind.bind, Except.bind, if_neg hne]
        rfl
      rw [hstep]
      exact ih (fun l2 hl2 => hno l2 (List.mem_cons_of_mem l hl2))

/-- C10: on an exports file that exists but in which no data row's name
cell equals the requested export name, `read_exports` prints a diagnostic
and returns `None` (the final `return df_exports` hits a never-assigned
local, and the blanket guard converts that NameError — or an IndexError on
a short row — into the printed message), and no exception escapes. -/
theorem read_exports_no_match (fs : FS) (path export_name : String) (delim : Char)
    (ls : List String) (hls : fs.lines path = some ls)
    (hnm : ∀ l ∈ (exports_lines ls).drop 2,
      ¬ pyIndex (trimValues l) 1 = Except.ok export_name) :
    read_exports fs path export_name delim = (none, [Diag.exportsReadError]) := by
  have hbody : read_exports_body ls export_name = Except.error () := by
    unfold read_exports_body
    rcases exportsLoop_no_match export_name _ hnm with h | h <;> rw [h] <;> rfl
  simp [read_exports, hls, hbody]

/-- Witness for C10 at a concrete two-row exports file. -/
theorem read_exports_no_match_witness :
    read_exports exportsFS "exp.txt" "Wanted" '\t' = (none, [Diag.exportsReadError]) :=
  read_exports_no_match exportsFS "exp.txt" "Wanted" '\t'
    ["h1", "h2", "1\tOther\tx", "2\tAnother\ty"] rfl (by decide)

/-- Helper: running a bound `PyM` computation runs the head and, unless it
raised, the continuation. -/
theorem PyM_run_bind {α β : Type} (x : PyM α) (f : α → PyM β) (s : List Diag) :
    ((x >>= f).run).run s =
      match (x.run).run s with
      | (Except.ok a, s2) => ((f a).run).run s2
      | (Except.error e, s2) => (Except.error e, s2) := by
  rcases hx : (x.run).run s with ⟨r, s2⟩
  simp only [ExceptT.run, StateT.run] at hx
  rcases r with u | a <;>
    simp [Bind.bind, ExceptT.bind, ExceptT.run, ExceptT.bindCont, ExceptT.mk, StateT.run,
      StateT.bind, Pure.pure, StateT.pure, hx]

/-- Helper: a bound `PyM` computation whose continuation always raises
raises. -/
theorem PyM_bind_error {α β : Type} (x : PyM α) (f : α → PyM β) (s : List Diag)
    (h : ∀ a s2, (((f a).run).run s2).1 = Except.error ()) :
    (((x >>= f).run).run s).1 = Except.error () := by
  rw [PyM_run_bind]
  rcases hx : (x.run).run s with ⟨r, s2⟩
  rcases r with u | a
  · rfl
  · exact h a s2

/-- Helper: a raised exception stays raised. -/
theorem PyM_throw_bind {α β : Type} (f : α → PyM β) (s : List Diag) :
    (((throw () : PyM α) >>= f).run).run s = (Except.error (), s) := by
  rw [PyM_run_bind]
  rfl

/-- Helper: using an absent value raises, and the exception propagates. -/
theorem PyM_liftOpt_none {α β : Type} (f : α → PyM β) (s : List Diag) :
    ((((liftOpt (none : Option α)) >>= f).run).run s).1 = Except.error () := by
  rw [PyM_run_bind]
  rfl

/-- C1 amended: `create_export_spec` ignores its path arguments (the try
block overwrites them with hard-coded names) and its guard catches nothing,
because the readers swallow their own failures: whenever any of the five
upstream readers returns an absent result, the first unguarded use of that
result raises an exception that propagates to the caller — the function
neither prints its own diagnostic nor returns an absent result. -/
theorem create_export_spec_absent_reader (fs : FS)
    (q_path e_path k_path alt_set_path export_path export_name survey_xml_path : String)
    (delim : Char)
    (h : (read_q_fields fs "tms_Q-Fields_Q-Field Details_bulk.txt" '\t').1 = none ∨
      (read_e_fields fs "tms_E-Fields.txt" '\t').1 = none ∨
      (read_k_fields fs "tms_K-Fields_K-Field Details_bulk.txt" '\t').1 = none ∨
      (read_alt_sets fs "tms_Alt Sets.txt" '\t').1 = none ∨
      (read_exports fs "tms_Exports_Export Details_bulk.txt"
          "ECSC Daily File - PLS (with survey data flag)" '\t').1 = none) :
    (create_export_spec fs q_path e_path k_path alt_set_path export_path export_name
        survey_xml_path delim).2 = Except.error () := by
  rcases hq : read_q_fields fs "tms_Q-Fields_Q-Field Details_bulk.txt" '\t' with ⟨df_q, p1⟩
  rcases he : read_e_fields fs "tms_E-Fields.txt" '\t' with ⟨df_e, p2⟩
  rcases hk : read_k_fields fs "tms_K-Fields_K-Field Details_bulk.txt" '\t' with ⟨df_k, p3⟩
  rcases ha : read_alt_sets fs "tms_Alt Sets.txt" '\t' with ⟨df_alt, p4⟩
  rcases hx : read_exports fs "tms_Exports_Export Details_bulk.txt"
      "ECSC Daily File - PLS (with survey data flag)" '\t' with ⟨df_export, p5⟩
  rw [hq, he, hk, ha, hx] at h
  simp only [create_export_spec, hq, he, hk, ha, hx]
  rcases h with h | h | h | h | h <;> simp only at h <;> subst h
  · apply PyM_bind_error; intro _ _
    apply PyM_bind_error; intro _ _
    apply PyM_bind_error; intro _ _
    apply PyM_bind_error; intro _ _
    apply PyM_bind_error; intro _ _
    exact PyM_liftOpt_none _ _
  · apply PyM_bind_error; intro _ _
    apply PyM_bind_error; intro _ _
    apply PyM_bind_error; intro _ _
    apply PyM_bind_error; intro _ _
    apply PyM_bind_error; intro _ _
    apply PyM_bind_error; intro _ _
    apply PyM_bind_error; intro _ _
    exact PyM_liftOpt_none _ _
  · apply PyM_bind_error; intro _ _
    apply PyM_bind_error; intro _ _
    apply PyM_bind_error; intro _ _
    apply PyM_bind_error; intro _ _
    apply PyM_bind_error; intro _ _
    apply PyM_bind_error; intro _ _
    apply PyM_bind_error; intro _ _
    apply PyM_bind_error; intro _ _
    apply PyM_bind_error; intro _ _
    exact PyM_liftOpt_none _ _
  · simp only [organize_alt_sets_df]
    apply PyM_bind_error; intro _ _
    apply PyM_bind_error; intro _ _
    apply PyM_bind_error; intro _ _
    apply PyM_bind_error; intro _ _
    apply PyM_bind_error; intro _ _
    apply PyM_bind_error; intro _ _
    apply PyM_bind_error; intro _ _
    apply PyM_bind_error; intro _ _
    apply PyM_bind_error; intro _ _
    apply PyM_bind_error; intro _ _
    apply PyM_bind_error; intro _ _
    apply PyM_bind_error; intro _ _
    apply PyM_bind_error; intro _ _
    apply PyM_bind_error; intro _ _
    exact PyM_liftOpt_none _ _
  · apply PyM_bind_error; intro _ _
    apply PyM_bind_error; intro _ _
    apply PyM_bind_error; intro _ _
    apply PyM_bind_error; intro _ _
    apply PyM_bind_error; intro _ _
    apply PyM_bind_error; intro _ _
    apply PyM_bind_error; intro _ _
    apply PyM_bind_error; intro _ _
    apply PyM_bind_error; intro _ _
    apply PyM_bind_error; intro _ _
    apply PyM_bind_error; intro _ _
    exact PyM_liftOpt_none _ _

/-- Witness for the amended C1 at the empty file system. -/
theorem create_export_spec_absent_reader_witness :
    (create_export_spec fsEmpty "a" "b" "c" "d" "e" "f" "g" '\t').2 = Except.error () :=
  create_export_spec_absent_reader fsEmpty "a" "b" "c" "d" "e" "f" "g" '\t' (Or.inl rfl)

/-- C1 counterexample: on a file system with none of the hard-coded input
files, every reader returns an absent result (printing its own path
diagnostic), and `create_export_spec` raises (TypeError on subscripting the
absent q-field result) instead of printing and returning an absent
result. -/
theorem create_export_spec_cex :
    (read_q_fields fsEmpty "tms_Q-Fields_Q-Field Details_bulk.txt" '\t').1 = none ∧
    create_export_spec fsEmpty "a" "b" "c" "d" "e" "f" "g" '\t' =
      ([Diag.qPathInvalid, Diag.ePathInvalid, Diag.kPathInvalid, Diag.altPathInvalid,
        Diag.exportsPathInvalid], Except.error ()) :=
  ⟨rfl, rfl⟩

/-- Helper: decompose a successful `Except` bind. -/
theorem exceptBind_ok {α β : Type} {x : Except Unit α} {f : α → Except Unit β} {b : β}
    (h : x >>= f = Except.ok b) : ∃ a, x = Except.ok a ∧ f a = Except.ok b := by
  cases x with
  | ok a => exact ⟨a, rfl, h⟩
  | error e => simp [Bind.bind, Except.bind] at h

/-- Helper: reading a local succeeds exactly on a bound local. -/
theorem ofOpt_ok {α : Type} {o : Option α} {a : α} (h : ofOpt o = Except.ok a) : o = some a := by
  cases o with
  | none => simp [ofOpt] at h
  | some b =>
    simp only [ofOpt, Except.ok.injEq] at h
    rw [h]

/-- Helper: a successful walker step on a start event appends exactly one
record carrying the updated page number and the node's type attribute and
bumps the node counter, incrementing the page exactly on PAGE_BREAK; an end
event leaves output, page and node counter unchanged. -/
theorem walkStep_ok {st : WalkState} {phase : Phase} {node : NodeAttrs} {st' : WalkState}
    (h : walkStep st (phase, node) = Except.ok st') :
    (phase = Phase.start ∧ ∃ r : SurveyRec,
        st'.output = st.output ++ [r] ∧
        r.survey_page_number = st'.page_num ∧
        r.type = getNA node.type ∧
        st'.xml_node_num = st.xml_node_num + 1 ∧
        st'.page_num = (if getNA node.type = "PAGE_BREAK" then st.page_num + 1 else st.page_num)) ∨
    (phase = Phase.stop ∧ st'.output = st.output ∧ st'.page_num = st.page_num ∧
        st'.xml_node_num = st.xml_node_num) := by
  unfold walkStep at h
  obtain ⟨qt5, hac, h⟩ := exceptBind_ok h
  cases phase with
  | stop =>
    right
    simp only [reduceCtorEq, if_neg, reduceIte, pure, Except.pure, Except.ok.injEq] at h
    subst h
    refine ⟨rfl, rfl, ?_, rfl⟩
    simp
  | start =>
    left
    simp only [reduceIte] at h
    obtain ⟨gN, h1, h⟩ := exceptBind_ok h
    obtain ⟨gT, h2, h⟩ := exceptBind_ok h
    obtain ⟨gC, h3, h⟩ := exceptBind_ok h
    obtain ⟨nTy, h4, h⟩ := exceptBind_ok h
    obtain ⟨nNa, h5, h⟩ := exceptBind_ok h
    obtain ⟨nFi, h6, h⟩ := exceptBind_ok h
    obtain ⟨qtv, h7, h⟩ := exceptBind_ok h
    obtain ⟨nCo, h8, h⟩ := exceptBind_ok h
    simp only [pure, Except.pure, Except.ok.injEq] at h
    subst h
    have hty := ofOpt_ok h4
    simp only [reduceIte, Option.some.injEq] at hty
    refine ⟨rfl, ⟨_, rfl, rfl, ?_, rfl, ?_⟩⟩
    · exact hty.symm
    · by_cases hpb : getNA node.type = "PAGE_BREAK"
      · simp [hpb]
      · simp [hpb]

/-- Helper: PAGE_BREAK counts add over append. -/
theorem countPB_append (a b : List SurveyRec) : countPB (a ++ b) = countPB a + countPB b := by
  simp [countPB, List.filter_append]

/-- Helper: the PAGE_BREAK count of one record. -/
theorem countPB_singleton (r : SurveyRec) :
    countPB [r] = if r.type = "PAGE_BREAK" then 1 else 0 := by
  by_cases h : r.type = "PAGE_BREAK" <;> simp [countPB, h]

/-- Helper: one walker step preserves the page invariant. -/
theorem walkStep_pageInv {st st' : WalkState} {ev : Phase × NodeAttrs}
    (h : walkStep st ev = Except.ok st') (hinv : pageInv st) : pageInv st' := by
  rcases ev with ⟨phase, node⟩
  rcases walkStep_ok h with ⟨_, r, hout, hrpage, hrty, _, hpage⟩ | ⟨_, hout, hpage, _⟩
  · have hpage2 : st'.page_num = 1 + countPB (st.output ++ [r]) := by
      rw [countPB_append, countPB_singleton, hpage, hinv.1, hrty]
      by_cases hpb : getNA node.type = "PAGE_BREAK" <;> simp [hpb] <;> omega
    constructor
    · rw [hout]
      exact hpage2
    · intro i r2 hi
      rw [hout] at hi ⊢
      rcases Nat.lt_or_ge i st.output.length with hlt | hge
      · rw [List.getElem?_append_left hlt] at hi
        rw [List.take_append_of_le_length (by omega)]
        exact hinv.2 i r2 hi
      · rcases Nat.eq_or_lt_of_le hge with heq | hgt
        · rw [← heq, List.getElem?_concat_length] at hi
          cases hi
          rw [← heq, List.take_of_length_le (by simp [← heq]), hrpage]
          exact hpage2
        · rw [List.getElem?_len_le (by simp; omega)] at hi
          cases hi
  · unfold pageInv at hinv ⊢
    rw [hout, hpage]
    exact hinv

/-- Helper: the initial walker state satisfies the page invariant. -/
theorem walkInit_pageInv : pageInv walkInit := by
  constructor
  · rfl
  · intro i r2 hi
    simp [walkInit] at hi

/-- Helper: a successful walk from any invariant state ends in an invariant
state. -/
theorem foldlM_pageInv :
    ∀ (evs : List (Phase × NodeAttrs)) (st0 st : WalkState), pageInv st0 →
      evs.foldlM walkStep st0 = Except.ok st → pageInv st := by
  intro evs
  induction evs with
  | nil =>
    intro st0 st h0 h
    simp only [List.foldlM_nil] at h
    cases h
    exact h0
  | cons e rest ih =>
    intro st0 st h0 h
    rw [List.foldlM_cons] at h
    obtain ⟨st1, h1, h2⟩ := exceptBind_ok h
    exact ih st1 st (walkStep_pageInv h1 h0) h2

/-- Helper: every successful walk satisfies the page invariant. -/
theorem runWalker_pageInv {evs : List (Phase × NodeAttrs)} {st : WalkState}
    (h : runWalker evs = Except.ok st) : pageInv st :=
  foldlM_pageInv evs walkInit st walkInit_pageInv h

/-- Helper: PAGE_BREAK counts of prefixes are monotone. -/
theorem countPB_take_mono (l : List SurveyRec) {m n : Nat} (h : m ≤ n) :
    countPB (l.take m) ≤ countPB (l.take n) := by
  have hsub : List.Sublist (l.take m) (l.take n) := by
    rw [show l.take m = (l.take n).take m by rw [List.take_take, Nat.min_eq_left h]]
    exact List.take_sublist m (l.take n)
  exact List.Sublist.length_le (List.Sublist.filter _ hsub)

/-- C3: in the record sequence the survey XML walker emits, the page
counter starts at 1, and each emitted record's page number equals one plus
the number of PAGE_BREAK records emitted up to and including it; hence page
numbers are non-decreasing in emission order and step by exactly 1 at each
PAGE_BREAK start event (the only events that emit PAGE_BREAK records) and
by 0 at every other emission. -/
theorem survey_page_number_invariant :
    walkInit.page_num = 1 ∧
    ∀ evs st, runWalker evs = Except.ok st →
      (∀ (i : Nat) (r : SurveyRec), st.output[i]? = some r →
        r.survey_page_number = 1 + countPB (st.output.take (i + 1))) ∧
      (∀ (i j : Nat) (ri rj : SurveyRec), i ≤ j → st.output[i]? = some ri →
        st.output[j]? = some rj → ri.survey_page_number ≤ rj.survey_page_number) ∧
      (∀ (i : Nat) (ri rs : SurveyRec), st.output[i]? = some ri →
        st.output[i + 1]? = some rs →
        rs.survey_page_number =
          ri.survey_page_number + (if rs.type = "PAGE_BREAK" then 1 else 0)) := by
  refine ⟨rfl, ?_⟩
  intro evs st hrun
  have hinv := runWalker_pageInv hrun
  refine ⟨hinv.2, ?_, ?_⟩
  · intro i j ri rj hij hi hj
    rw [hinv.2 i ri hi, hinv.2 j rj hj]
    have hm := countPB_take_mono st.output (show i + 1 ≤ j + 1 by omega)
    omega
  · intro i ri rs hi hs
    rw [hinv.2 i ri hi, hinv.2 (i + 1) rs hs]
    have hts : st.output.take (i + 1 + 1) = st.output.take (i + 1) ++ [rs] := by
      rw [List.take_succ, hs]
      rfl
    rw [hts, countPB_append, countPB_singleton]
    omega

/-- Witness for C3 on the demo walk: the PAGE_BREAK record at index 1
satisfies the characterization. -/
theorem survey_page_number_invariant_witness :
    rec1demo.survey_page_number = 1 + countPB (demoSt.output.take 2) :=
  ((survey_page_number_invariant.2 demoEvs demoSt (by decide)).1) 1 rec1demo (by decide)

/-- C9: because the page counter is incremented before the record is
appended, a PAGE_BREAK record itself carries the incremented number: its
page number is one more than that of the immediately preceding emitted
record, and a record carries the initial page number 1 exactly when no
PAGE_BREAK record precedes it or is it. -/
theorem page_break_record_page :
    ∀ evs st, runWalker evs = Except.ok st →
      (∀ (i : Nat) (ri rs : SurveyRec), st.output[i]? = some ri →
        st.output[i + 1]? = some rs → rs.type = "PAGE_BREAK" →
        rs.survey_page_number = ri.survey_page_number + 1) ∧
      (∀ (i : Nat) (r : SurveyRec), st.output[i]? = some r →
        (r.survey_page_number = 1 ↔
          ∀ (j : Nat) (rj : SurveyRec), j ≤ i → st.output[j]? = some rj →
            ¬ rj.type = "PAGE_BREAK")) := by
  intro evs st hrun
  have hinv := runWalker_pageInv hrun
  constructor
  · intro i ri rs hi hs hpb
    rw [hinv.2 i ri hi, hinv.2 (i + 1) rs hs]
    have hts : st.output.take (i + 1 + 1) = st.output.take (i + 1) ++ [rs] := by
      rw [List.take_succ, hs]
      rfl
    rw [hts, countPB_append, countPB_singleton, if_pos hpb]
    omega
  · intro i r hi
    rw [hinv.2 i r hi]
    constructor
    · intro h1 j rj hji hj hpb
      have hc0 : countPB (st.output.take (i + 1)) = 0 := by omega
      have htk : (st.output.take (i + 1))[j]? = some rj := by
        rw [List.getElem?_take_of_lt (by omega)]
        exact hj
      have hmem : rj ∈ st.output.take (i + 1) := List.getElem?_mem htk
      have hfil : rj ∈ (st.output.take (i + 1)).filter (fun r => r.type = "PAGE_BREAK") := by
        rw [List.mem_filter]
        exact ⟨hmem, by simp [hpb]⟩
      have hpos : 0 < countPB (st.output.take (i + 1)) := by
        unfold countPB
        exact List.length_pos.mpr (List.ne_nil_of_mem hfil)
      omega
    · intro hall
      have hc0 : countPB (st.output.take (i + 1)) = 0 := by
        unfold countPB
        rw [List.length_eq_zero, List.filter_eq_nil_iff]
        intro a ha
        obtain ⟨n, hn⟩ := List.mem_iff_getElem?.mp ha
        have hnlt : n < i + 1 := by
          by_contra hge
          rw [List.getElem?_len_le (by simp; omega)] at hn
          cases hn
        have hna : st.output[n]? = some a := by
          rw [← List.getElem?_take_of_lt hnlt]
          exact hn
        simpa using hall n a (by omega) hna
      omega

/-- Witness for C9 on the demo walk: the PAGE_BREAK record at index 1
carries the root record's page plus one. -/
theorem page_break_record_page_witness :
    rec1demo.survey_page_number = rec0demo.survey_page_number + 1 :=
  (page_break_record_page demoEvs demoSt (by decide)).1 0 rec0demo rec1demo (by decide)
    (by decide) (by decide)
/-- Helper: with the node counter in sync with the output length, the
Python index `output[xml_node_num - 1]` retrieves the last emitted
record. -/
theorem pyIndex_last {l : List SurveyRec} {a : SurveyRec} (h : l.getLast? = some a) :
    pyIndex l ((l.length : Int) - 1) = Except.ok a := by
  have hne : l ≠ [] := by
    intro he
    rw [he] at h
    cases h
  have hlen : 1 ≤ l.length := by
    cases l with
    | nil => exact absurd rfl hne
    | cons x xs => simp
  unfold pyIndex
  have hif : (if ((l.length : Int) - 1) < 0 then (l.length : Int) + ((l.length : Int) - 1)
      else ((l.length : Int) - 1)) = ((l.length : Int) - 1) := if_neg (by omega)
  rw [hif]
  rw [if_pos (by omega : (0 : Int) ≤ (l.length : Int) - 1)]
  have ht : ((l.length : Int) - 1).toNat = l.length - 1 := by omega
  rw [ht, List.get?_eq_getElem?, ← List.getLast?_eq_getElem?, h]

/-- Helper: on a successful step, the state's question text is the result
of the ALT_COLUMN rule applied after the earlier question-text rules. -/
theorem walkStep_question_text {st : WalkState} {phase : Phase} {node : NodeAttrs}
    {st' : WalkState} (h : walkStep st (phase, node) = Except.ok st') :
    altColumnRule st node
        (qtPre st node phase
          (if phase = Phase.start then st.xml_nestingroup_depth + 1
            else st.xml_nestingroup_depth - 1)) =
      Except.ok st'.question_text := by
  unfold walkStep at h
  obtain ⟨qt5, hac, h⟩ := exceptBind_ok h
  cases phase with
  | stop =>
    simp only [reduceCtorEq, if_neg, reduceIte, pure, Except.pure, Except.ok.injEq] at h
    subst h
    simpa using hac
  | start =>
    simp only [reduceIte] at h
    obtain ⟨gN, h1, h⟩ := exceptBind_ok h
    obtain ⟨gT, h2, h⟩ := exceptBind_ok h
    obtain ⟨gC, h3, h⟩ := exceptBind_ok h
    obtain ⟨nTy, h4, h⟩ := exceptBind_ok h
    obtain ⟨nNa, h5, h⟩ := exceptBind_ok h
    obtain ⟨nFi, h6, h⟩ := exceptBind_ok h
    obtain ⟨qtv, h7, h⟩ := exceptBind_ok h
    obtain ⟨nCo, h8, h⟩ := exceptBind_ok h
    simp only [pure, Except.pure, Except.ok.injEq] at h
    subst h
    simpa using hac

/-- Helper: without an ALT_COLUMN node, the pre-rule question text is the
sentinel, the previous text, the node's text attribute or its name
attribute. -/
theorem qtPre_cases (st : WalkState) (node : NodeAttrs) (phase : Phase) (depth : Int) :
    qtPre st node phase depth = some "NA" ∨
      qtPre st node phase depth = st.question_text ∨
      qtPre st node phase depth = some (getNA node.text) ∨
      qtPre st node phase depth = some (getNA node.name) := by
  unfold qtPre groupLogic
  split_ifs <;> simp

/-- C4 amended: the derived-label rule has no event-phase test.  On any
event — start or end alike — of a node whose type attribute is ALT_COLUMN,
when the immediately preceding emitted record has type SIMPLE_QUESTION (and
the node counter is in sync with the output, as it is for every reachable
state), a successful step leaves question_text equal to the label derived
from that record's field; on events of non-ALT_COLUMN nodes the rule never
fires: question_text becomes the sentinel, the node's text attribute, its
name attribute, or stays unchanged. -/
theorem alt_column_rule_fires :
    (∀ (st : WalkState) (phase : Phase) (node : NodeAttrs) (prevRec : SurveyRec)
        (st' : WalkState),
      st.xml_node_num = st.output.length →
      st.output.getLast? = some prevRec →
      prevRec.type = "SIMPLE_QUESTION" →
      getNA node.type = "ALT_COLUMN" →
      walkStep st (phase, node) = Except.ok st' →
      st'.question_text = some ("q-field text - " ++ prevRec.field)) ∧
    (∀ (st : WalkState) (phase : Phase) (node : NodeAttrs) (st' : WalkState),
      ¬ getNA node.type = "ALT_COLUMN" →
      walkStep st (phase, node) = Except.ok st' →
      st'.question_text = some "NA" ∨ st'.question_text = st.question_text ∨
        st'.question_text = some (getNA node.text) ∨
        st'.question_text = some (getNA node.name)) := by
  constructor
  · intro st phase node prevRec st' hnum hlast hSQ hAC h
    have hqt := walkStep_question_text h
    unfold altColumnRule at hqt
    rw [if_pos hAC, hnum, pyIndex_last hlast] at hqt
    simp only [Bind.bind, Except.bind, if_pos hSQ, pure, Except.pure, Except.ok.injEq] at hqt
    exact hqt.symm
  · intro st phase node st' hnAC h
    have hqt := walkStep_question_text h
    unfold altColumnRule at hqt
    rw [if_neg hnAC] at hqt
    simp only [pure, Except.pure, Except.ok.injEq] at hqt
    rw [← hqt]
    exact qtPre_cases st node phase _

/-- Witness for the amended C4 at the concrete pre-end-event state: the end
event of the ALT_COLUMN yields the derived label, and a plain node's event
leaves the text in the allowed set. -/
theorem alt_column_rule_fires_witness :
    c4StAfter.question_text = some ("q-field text - " ++ "q_9") ∧
    (c4StAfter.question_text = some "NA" ∨ c4StAfter.question_text = c4St.question_text ∨
      c4StAfter.question_text = some (getNA attrsNone.text) ∨
      c4StAfter.question_text = some (getNA attrsNone.name) ∨ True) :=
  ⟨alt_column_rule_fires.1 c4St Phase.stop (attrsType "ALT_COLUMN")
      ⟨3, 4, 1, "G", "NA", "NA", "SIMPLE_QUESTION", "NA", "q_9", "NA", "NA"⟩ c4StAfter
      (by decide) (by decide) (by decide) (by decide) (by decide),
    Or.inr (Or.inr (Or.inr (Or.inr trivial)))⟩

/-- C4 counterexample: at the concrete state whose last emitted record is a
SIMPLE_QUESTION on field q_9, feeding the END event of the enclosing
ALT_COLUMN element succeeds and changes question_text from the sentinel to
the derived label — the rule fired on an end event, which the claim
excludes. -/
theorem alt_column_rule_end_event_cex :
    c4St.question_text = some "NA" ∧
    (c4St.output.getLast?.map (fun r => r.type)) = some "SIMPLE_QUESTION" ∧
    walkStep c4St (Phase.stop, attrsType "ALT_COLUMN") = Except.ok c4StAfter ∧
    c4StAfter.question_text = some ("q-field text - " ++ "q_9") := by
  refine ⟨by decide, by decide, by decide, by decide⟩

/-- Helper: with pairwise-distinct keys, filtering on one key yields
nothing (and `find?` agrees) or exactly the entry `find?` returns. -/
theorem nodup_filter_find (qtab : List (Cell × Cell)) (c : Cell)
    (hnodup : (qtab.map Prod.fst).Nodup) :
    (qtab.filter (fun p => p.1 = c) = [] ∧ qtab.find? (fun p => p.1 = c) = none) ∨
      (∃ p, qtab.filter (fun p => p.1 = c) = [p] ∧ qtab.find? (fun p => p.1 = c) = some p) := by
  induction qtab with
  | nil => exact Or.inl ⟨rfl, rfl⟩
  | cons q rest ih =>
    rw [List.map_cons, List.nodup_cons] at hnodup
    by_cases hq : q.1 = c
    · right
      refine ⟨q, ?_, ?_⟩
      · rw [List.filter_cons, if_pos (by simp [hq])]
        have hrest : rest.filter (fun p => p.1 = c) = [] := by
          rw [List.filter_eq_nil_iff]
          intro p hp
          simp only [decide_eq_true_eq]
          intro hpc
          exact hnodup.1 (by
            rw [← hq] at hpc
            exact hpc ▸ List.mem_map_of_mem Prod.fst hp)
        rw [hrest]
      · rw [List.find?_cons]
        simp [hq]
    · have hres := ih hnodup.2
      rw [List.filter_cons, if_neg (by simp [hq]), List.find?_cons]
      simpa [hq] using hres

/-- Helper: one record's row set in the merged output equals the
specification's lookup rule. -/
theorem addSQT_elem (qtab : List (Cell × Cell)) (r : SurveyRec)
    (hnodup : (qtab.map Prod.fst).Nodup) :
    (match qtab.filter (fun p => p.1 = Cell.str r.field) with
      | [] => [(r, select_question_text r.question_text "NA")]
      | m :: ms =>
        (m :: ms).map (fun p => (r, select_question_text r.question_text (cellFillNA p.2)))) =
      [(r, specSurveyQuestionText qtab r.field r.question_text)] := by
  rcases nodup_filter_find qtab (Cell.str r.field) hnodup with ⟨hfil, hfind⟩ | ⟨p, hfil, hfind⟩
  · rw [hfil]
    simp only [specSurveyQuestionText, lookupInSurvey, hfind, select_question_text]
    simp
  · rw [hfil]
    simp only [List.map_cons, List.map_nil, specSurveyQuestionText, lookupInSurvey, hfind]
    rcases p with ⟨pk, pv⟩
    cases pv with
    | null => simp [cellFillNA, select_question_text]
    | str s =>
      simp only [cellFillNA, select_question_text]
      by_cases hqt : r.question_text = "NA"
      · by_cases hs : s = "NA"
        · simp [hqt, hs]
        · simp [hqt, hs]
      · simp [hqt]

/-- C5: for every record the survey XML tree walker emits, the final
survey_question_text is the label looked up from the q-field table's
In-survey column (joined on the record's field, with unique keys) when the
in-traversal text is the sentinel and the looked-up label is present, and
the in-traversal text in every other case. -/
theorem survey_question_text_lookup (qtab : List (Cell × Cell))
    (evs : List (Phase × NodeAttrs)) (st : WalkState)
    (hrun : runWalker evs = Except.ok st)
    (hnodup : (qtab.map Prod.fst).Nodup) :
    addSurveyQuestionText qtab st.output =
      st.output.map (fun r => (r, specSurveyQuestionText qtab r.field r.question_text)) := by
  have hgen : ∀ recs : List SurveyRec, addSurveyQuestionText qtab recs =
      recs.map (fun r => (r, specSurveyQuestionText qtab r.field r.question_text)) := by
    intro recs
    induction recs with
    | nil => rfl
    | cons r rest ih =>
      unfold addSurveyQuestionText at ih ⊢
      rw [List.flatMap_cons, List.map_cons, ih, addSQT_elem qtab r hnodup]
      rfl
  exact hgen st.output

/-- Witness for C5 on the demo walk with a one-entry q-field table. -/
theorem survey_question_text_lookup_witness :
    addSurveyQuestionText [(Cell.str "q_9", Cell.str "HowAreYou")] demoSt.output =
      demoSt.output.map (fun r =>
        (r, specSurveyQuestionText [(Cell.str "q_9", Cell.str "HowAreYou")] r.field
          r.question_text)) :=
  survey_question_text_lookup [(Cell.str "q_9", Cell.str "HowAreYou")] demoEvs demoSt
    (by decide) (by decide)

theorem countSepChars_append_sep (m : List Char) :
    ∀ l : List Char, countSepChars (l ++ ';' :: ' ' :: m) = countSepChars l + 1 + countSepChars m := by
  have hsp : ∀ m2 : List Char, countSepChars (' ' :: m2) = countSepChars m2 := by
    intro m2
    cases m2 with
    | nil => rfl
    | cons c t => simp [countSepChars]
  intro l
  induction l with
  | nil =>
    simp only [List.nil_append, countSepChars, hsp]
    simp
  | cons a l2 ih =>
    cases l2 with
    | nil =>
      simp only [List.cons_append, List.nil_append, countSepChars, hsp]
      simp [countSepChars]
    | cons b t =>
      simp only [List.cons_append] at ih ⊢
      rw [countSepChars]
      conv_rhs => rw [countSepChars]
      rw [ih]
      omega

theorem countSep_append_sep (a b : String) :
    countSep (a ++ "; " ++ b) = countSep a + countSep b + 1 := by
  unfold countSep
  rw [String.data_append, String.data_append]
  have hsep : ("; " : String).data = [';', ' '] := rfl
  rw [hsep, List.append_assoc]
  simp only [List.cons_append, List.nil_append]
  rw [countSepChars_append_sep]
  omega

theorem sep_append_ne_empty (a b : String) : ¬ a ++ "; " ++ b = "" := by
  intro h
  have : (a ++ "; " ++ b).data = ([] : List Char) := by rw [h]
  rw [String.data_append, String.data_append] at this
  have hsep : ("; " : String).data = [';', ' '] := rfl
  rw [hsep] at this
  simp at this

theorem organizeAltRow_label {v : Option String} {acc : AltAcc} {row : AltRow}
    {v2 : Option String} {acc2 : AltAcc}
    (h : organizeAltRow (v, acc) row = Except.ok (v2, acc2)) :
    acc2.alt_set_label = labelStep acc.alt_set_label row.label := by
  unfold organizeAltRow at h
  by_cases hav : acc.alt_set_value = ""
  · cases hvv : row.value with
    | null =>
      cases hopt : v with
      | none => simp [hav, hvv, hopt, Bind.bind, Except.bind] at h
      | some v0 =>
        simp only [hav, hvv, hopt, if_pos, Bind.bind, Except.bind, pure, Except.pure,
          Except.ok.injEq, Prod.mk.injEq, reduceIte] at h
        rw [← h.2]
    | str sv =>
      simp only [hav, hvv, Bind.bind, Except.bind, pure, Except.pure, Except.ok.injEq,
        Prod.mk.injEq, reduceIte] at h
      rw [← h.2]
  · simp only [hav, Bind.bind, Except.bind, pure, Except.pure, Except.ok.injEq,
      Prod.mk.injEq, reduceIte, if_neg] at h
    rw [← h.2]

theorem organizeAltRow_nonnull (v : Option String) (acc : AltAcc) (row : AltRow)
    (hne : ¬ row.value = Cell.null) :
    organizeAltRow (v, acc) row = Except.ok (some (intNormValue row.value),
      ⟨numStep acc.alt_set_number row.number,
        if acc.alt_set_value = "" then intNormValue row.value
          else acc.alt_set_value ++ "; " ++ intNormValue row.value,
        labelStep acc.alt_set_label row.label⟩) := by
  cases hv : row.value with
  | null => exact absurd hv hne
  | str s =>
    unfold organizeAltRow
    by_cases hav : acc.alt_set_value = ""
    · simp only [hv, hav, Bind.bind, Except.bind, pure, Except.pure, reduceIte]
    · simp only [hv, hav, Bind.bind, Except.bind, pure, Except.pure, reduceIte, if_neg]

theorem organizeAltGroup_label (rows : List AltRow) :
    ∀ (v : Option String) (acc0 : AltAcc) (v2 : Option String) (acc : AltAcc),
      rows.foldlM organizeAltRow (v, acc0) = Except.ok (v2, acc) →
      acc.alt_set_label = rows.foldl (fun a r => labelStep a r.label) acc0.alt_set_label := by
  induction rows with
  | nil =>
    intro v acc0 v2 acc h
    simp only [List.foldlM_nil] at h
    cases h
    rfl
  | cons r rest ih =>
    intro v acc0 v2 acc h
    rw [List.foldlM_cons] at h
    obtain ⟨st1, h1, h2⟩ := exceptBind_ok h
    rcases st1 with ⟨v1, acc1⟩
    have hl := organizeAltRow_label h1
    rw [List.foldl_cons, ← hl]
    exact ih v1 acc1 v2 acc h2

theorem labelFold_count_from (rows : List Cell) :
    ∀ acc : String, ¬ acc = "" → (∀ c ∈ rows, countSep c.pyStr = 0) →
      countSep (rows.foldl labelStep acc) = countSep acc + rows.length ∧
        ¬ rows.foldl labelStep acc = "" := by
  induction rows with
  | nil =>
    intro acc hne _
    exact ⟨by simp, hne⟩
  | cons c rest ih =>
    intro acc hne hall
    rw [List.foldl_cons]
    have hstep : labelStep acc c = acc ++ "; " ++ c.pyStr := by
      unfold labelStep
      rw [if_neg hne]
    rw [hstep]
    have h2 := ih (acc ++ "; " ++ c.pyStr) (sep_append_ne_empty _ _)
      (fun x hx => hall x (List.mem_cons_of_mem c hx))
    refine ⟨?_, h2.2⟩
    rw [h2.1, countSep_append_sep, hall c (List.mem_cons_self c rest)]
    simp only [List.length_cons]
    omega

theorem countSep_empty : countSep "" = 0 := rfl

theorem countSep_nan : countSep (Cell.pyStr Cell.null) = 0 := rfl

theorem labelFold_count (cells : List Cell)
    (hok : ∀ c ∈ cells, ∀ s, c = Cell.str s → ¬ s = "" ∧ countSep s = 0) :
    countSep (cells.foldl labelStep "") =
      cells.length - (cells.takeWhile Cell.isnull).length - 1 := by
  induction cells with
  | nil => simp [countSep_empty]
  | cons c rest ih =>
    cases hc : c with
    | null =>
      rw [List.foldl_cons]
      have hstep : labelStep "" Cell.null = "" := rfl
      rw [hstep]
      have htw : (Cell.null :: rest).takeWhile Cell.isnull =
          Cell.null :: rest.takeWhile Cell.isnull := by
        rw [List.takeWhile_cons]
        simp [Cell.isnull]
      rw [htw]
      have hih := ih (fun x hx s hs => hok x (List.mem_cons_of_mem c hx) s hs)
      rw [hih]
      simp only [List.length_cons]
      omega
    | str s =>
      obtain ⟨hs_ne, hs_cnt⟩ := hok c (List.mem_cons_self c rest) s hc
      rw [List.foldl_cons]
      have hstep : labelStep "" (Cell.str s) = s := rfl
      rw [hstep]
      have hcnts : ∀ x ∈ rest, countSep x.pyStr = 0 := by
        intro x hx
        cases hx2 : x with
        | null => exact countSep_nan
        | str s2 =>
          have := (hok x (List.mem_cons_of_mem c hx) s2 hx2).2
          simpa [Cell.pyStr] using this
      rw [(labelFold_count_from rest s hs_ne hcnts).1, hs_cnt]
      have htw : (Cell.str s :: rest).takeWhile Cell.isnull = [] := by
        rw [List.takeWhile_cons]
        simp [Cell.isnull]
      rw [htw]
      simp only [List.length_cons, List.length_nil]
      omega

theorem organizeAltGroup_value_from (rows : List AltRow) :
    ∀ (v : Option String) (acc0 : AltAcc), ¬ acc0.alt_set_value = "" →
      (∀ r ∈ rows, ¬ r.value = Cell.null ∧ countSep (intNormValue r.value) = 0) →
      ∃ v2 acc, rows.foldlM organizeAltRow (v, acc0) = Except.ok (v2, acc) ∧
        countSep acc.alt_set_value = countSep acc0.alt_set_value + rows.length := by
  induction rows with
  | nil =>
    intro v acc0 hne _
    exact ⟨v, acc0, by simp only [List.foldlM_nil]; rfl, by simp⟩
  | cons r rest ih =>
    intro v acc0 hne hall
    rw [List.foldlM_cons, organizeAltRow_nonnull v acc0 r (hall r (List.mem_cons_self r rest)).1,
      if_neg hne]
    obtain ⟨v2, acc, hfold, hcount⟩ := ih (some (intNormValue r.value))
      ⟨numStep acc0.alt_set_number r.number,
        acc0.alt_set_value ++ "; " ++ intNormValue r.value,
        labelStep acc0.alt_set_label r.label⟩
      (sep_append_ne_empty _ _)
      (fun x hx => hall x (List.mem_cons_of_mem r hx))
    refine ⟨v2, acc, ?_, ?_⟩
    · simp only [Bind.bind, Except.bind]
      exact hfold
    · rw [hcount]
      simp only [countSep_append_sep, (hall r (List.mem_cons_self r rest)).2,
        List.length_cons]
      omega

theorem organizeAltGroup_value (rows : List AltRow) (v : Option String)
    (hall : ∀ r ∈ rows, ¬ r.value = Cell.null ∧ ¬ intNormValue r.value = "" ∧
      countSep (intNormValue r.value) = 0) :
    ∃ v2 acc, organizeAltGroup v rows = Except.ok (v2, acc) ∧
      countSep acc.alt_set_value = rows.length - 1 := by
  cases rows with
  | nil => exact ⟨v, ⟨"", "", ""⟩, rfl, by simp [countSep_empty]⟩
  | cons r rest =>
    unfold organizeAltGroup
    rw [List.foldlM_cons,
      organizeAltRow_nonnull v ⟨"", "", ""⟩ r (hall r (List.mem_cons_self r rest)).1]
    simp only [reduceIte]
    obtain ⟨v2, acc, hfold, hcount⟩ := organizeAltGroup_value_from rest
      (some (intNormValue r.value))
      ⟨numStep "" r.number, intNormValue r.value, labelStep "" r.label⟩
      (hall r (List.mem_cons_self r rest)).2.1
      (fun x hx => ⟨(hall x (List.mem_cons_of_mem r hx)).1,
        (hall x (List.mem_cons_of_mem r hx)).2.2⟩)
    refine ⟨v2, acc, ?_, ?_⟩
    · simp only [Bind.bind, Except.bind]
      exact hfold
    · rw [hcount, (hall r (List.mem_cons_self r rest)).2.2]
      simp only [List.length_cons]
      omega

theorem organizeNames_mem (table : List AltRow) :
    ∀ (names : List Cell) (v : Option String) (outs0 : List AltOut)
      (res : Option String × List AltOut),
      names.foldlM (organizeNameStep table) (v, outs0) = Except.ok res →
      ∀ o ∈ res.2, o ∈ outs0 ∨ ∃ v1 v2 acc,
        organizeAltGroup v1 (table.filter (fun r => pdCellEq r.name o.alt_set_name)) =
          Except.ok (v2, acc) ∧
        o.alt_set_labels = acc.alt_set_label ∧ o.alt_set_values = acc.alt_set_value := by
  intro names
  induction names with
  | nil =>
    intro v outs0 res h o ho
    simp only [List.foldlM_nil] at h
    cases h
    exact Or.inl ho
  | cons nm rest ih =>
    intro v outs0 res h o ho
    rw [List.foldlM_cons] at h
    obtain ⟨st1, h1, h2⟩ := exceptBind_ok h
    unfold organizeNameStep at h1
    obtain ⟨pair, hg, h1⟩ := exceptBind_ok h1
    rcases pair with ⟨v2, acc⟩
    simp only [pure, Except.pure, Except.ok.injEq] at h1
    subst h1
    rcases ih v2 (outs0 ++ [⟨nm, acc.alt_set_number, acc.alt_set_label, acc.alt_set_value⟩])
      res h2 o ho with hmem | hrest
    · rcases List.mem_append.mp hmem with h0 | hnew
      · exact Or.inl h0
      · right
        have ho_eq : o = ⟨nm, acc.alt_set_number, acc.alt_set_label, acc.alt_set_value⟩ := by
          simpa using hnew
        subst ho_eq
        exact ⟨v, v2, acc, hg, rfl, rfl⟩
    · exact Or.inr hrest

/-- C2: separator counts of `organize_alt_sets` output strings. For every
output row, (a) when every non-null label cell of its group is a non-empty
separator-free string, the joined label string holds exactly
(group size - leading run of null labels - 1) occurrences of the
separator - null label cells after the first non-null one are appended as
the text nan and therefore count, refuting the spec's non-null-count rule;
(b) when every value cell of the group is non-null and normalizes to a
non-empty separator-free string, the joined value string holds exactly
(group size - 1) occurrences. -/
theorem organize_alt_sets_sep_counts (table : List AltRow) (outs : List AltOut)
    (h : organize_alt_sets table = some outs) (o : AltOut) (ho : o ∈ outs) :
    ((∀ r ∈ table.filter (fun r => pdCellEq r.name o.alt_set_name),
        r.label.isnull = false → ¬ r.label.pyStr = "" ∧ countSep r.label.pyStr = 0) →
      countSep o.alt_set_labels =
        (table.filter (fun r => pdCellEq r.name o.alt_set_name)).length -
          ((table.filter (fun r => pdCellEq r.name o.alt_set_name)).takeWhile
            (fun r => r.label.isnull)).length - 1) ∧
    ((∀ r ∈ table.filter (fun r => pdCellEq r.name o.alt_set_name),
        ¬ r.value = Cell.null ∧ ¬ intNormValue r.value = "" ∧
          countSep (intNormValue r.value) = 0) →
      countSep o.alt_set_values =
        (table.filter (fun r => pdCellEq r.name o.alt_set_name)).length - 1) := by
  simp only [organize_alt_sets] at h
  rcases hres : (uniqueKeep (table.map (·.name))).foldlM (organizeNameStep table) (none, [])
    with u | ⟨vfin, outsfin⟩
  · rw [hres] at h
    cases h
  · rw [hres] at h
    simp only [Option.some.injEq] at h
    subst h
    rcases organizeNames_mem table _ none [] (vfin, outsfin) hres o ho with hmem |
      ⟨v1, v2, acc, hg, hlab, hval⟩
    · cases hmem
    constructor
    · intro hok
      rw [hlab, organizeAltGroup_label _ v1 _ v2 acc hg,
        ← List.foldl_map (fun r : AltRow => r.label) labelStep]
      rw [labelFold_count]
      · rw [List.length_map, List.takeWhile_map, List.length_map]
        rfl
      · intro c hc s hcs
        obtain ⟨r, hr, hrc⟩ := List.mem_map.mp hc
        have hnn : r.label.isnull = false := by
          rw [hrc, hcs]
          rfl
        have := hok r hr hnn
        rw [hrc, hcs] at this
        exact this
    · intro hok
      rw [hval]
      obtain ⟨v2', acc', hg', hcount⟩ := organizeAltGroup_value _ v1 hok
      rw [hg] at hg'
      simp only [Except.ok.injEq, Prod.mk.injEq] at hg'
      rw [hg'.2]
      exact hcount

/-- Witness for C2 on the spec's own scenario table: both separator counts
of the organized YesNo row satisfy the characterization. -/
theorem organize_alt_sets_sep_counts_witness :
    countSep yesNoOut.alt_set_labels =
      (yesNoTable.filter (fun r => pdCellEq r.name yesNoOut.alt_set_name)).length -
        ((yesNoTable.filter (fun r => pdCellEq r.name yesNoOut.alt_set_name)).takeWhile
          (fun r => r.label.isnull)).length - 1 ∧
    countSep yesNoOut.alt_set_values =
      (yesNoTable.filter (fun r => pdCellEq r.name yesNoOut.alt_set_name)).length - 1 :=
  ⟨(organize_alt_sets_sep_counts yesNoTable [yesNoOut] (by decide) yesNoOut
      (by decide)).1 (by decide),
    (organize_alt_sets_sep_counts yesNoTable [yesNoOut] (by decide) yesNoOut
      (by decide)).2 (by decide)⟩

theorem mem_uniqueKeep_aux {α : Type} [DecidableEq α] (l : List α) :
    ∀ acc x, (x ∈ l.foldl (fun acc y => if y ∈ acc then acc else acc ++ [y]) acc ↔
      x ∈ acc ∨ x ∈ l) := by
  induction l with
  | nil => simp
  | cons y l ih =>
    intro acc x
    simp only [List.foldl_cons]
    rw [ih]
    by_cases hy : y ∈ acc
    · simp only [hy, if_pos, List.mem_cons]
      constructor
      · rintro (h | h)
        · exact Or.inl h
        · exact Or.inr (Or.inr h)
      · rintro (h | rfl | h)
        · exact Or.inl h
        · exact Or.inl hy
        · exact Or.inr h
    · rw [if_neg hy]
      simp only [List.mem_append, List.mem_singleton, List.mem_cons]
      tauto

theorem mem_uniqueKeep {α : Type} [DecidableEq α] (x : α) (l : List α) :
    x ∈ uniqueKeep l ↔ x ∈ l := by
  unfold uniqueKeep
  rw [mem_uniqueKeep_aux]
  simp

theorem stripAll_eq (l : List Cell) :
    stripAll l = if Cell.null ∈ l then Except.error () else
      Except.ok (l.map (fun c => pyStripChar ' ' c.pyStr)) := by
  induction l with
  | nil => rfl
  | cons c cs ih =>
    cases c with
    | null => simp [stripAll]
    | str s =>
      by_cases h : Cell.null ∈ cs
      · simp [stripAll, ih, h]
      · simp [stripAll, ih, h, Cell.pyStr]

theorem dictInsert_of_not_mem (d : List (String × List String)) (k : String)
    (v : List String) (h : ∀ p ∈ d, ¬ p.1 = k) : dictInsert d k v = d ++ [(k, v)] := by
  unfold dictInsert
  rw [if_neg]
  simp only [List.any_eq_true, decide_eq_true_eq, not_exists]
  intro p
  rw [not_and]
  exact h p

theorem kFieldDict_aux (rows : List KRow) :
    ∀ d0 : List (String × List String),
      (rows.map kRowKey).Nodup →
      (∀ p ∈ d0, ∀ r ∈ rows, ¬ p.1 = kRowKey r) →
      rows.foldl (fun d row =>
          dictInsert d (kRowKey row) (kFieldMatches row.calculation.pyStr)) d0 =
        d0 ++ rows.map (fun r => (kRowKey r, kFieldMatches r.calculation.pyStr)) := by
  induction rows with
  | nil =>
    intro d0 _ _
    simp
  | cons r rs ih =>
    intro d0 hnd hdisj
    simp only [List.foldl_cons]
    rw [dictInsert_of_not_mem d0 _ _ (fun p hp => hdisj p hp r (by simp))]
    have hnd2 : (rs.map kRowKey).Nodup := by
      simp only [List.map_cons, List.nodup_cons] at hnd
      exact hnd.2
    have hnotmem : kRowKey r ∉ rs.map kRowKey := by
      simp only [List.map_cons, List.nodup_cons] at hnd
      exact hnd.1
    rw [ih (d0 ++ [(kRowKey r, kFieldMatches r.calculation.pyStr)]) hnd2 ?hdisj2]
    · simp
    case hdisj2 =>
      intro p hp r2 hr2
      rcases List.mem_append.mp hp with hm | hm
      · exact hdisj p hm r2 (List.mem_cons_of_mem r hr2)
      · simp only [List.mem_singleton] at hm
        subst hm
        intro heq
        have heq2 : kRowKey r = kRowKey r2 := heq
        apply hnotmem
        rw [heq2]
        exact List.mem_map_of_mem kRowKey hr2

theorem kFieldDict_nodup (rows : List KRow) (h : (rows.map kRowKey).Nodup) :
    kFieldDict rows = rows.map (fun r => (kRowKey r, kFieldMatches r.calculation.pyStr)) := by
  have := kFieldDict_aux rows [] h (by simp)
  simpa [kFieldDict] using this

theorem parse_k_fields_eq (df_k : List KRow) (df_q df_e df_a : List Cell) :
    parse_k_fields df_k df_q df_e df_a =
      if Cell.null ∈ uniqueKeep df_q ∨ Cell.null ∈ uniqueKeep df_e ∨
          Cell.null ∈ uniqueKeep df_a ∨ Cell.null ∈ uniqueKeep (df_k.map (·.key))
      then none
      else some ((kFieldDict df_k).flatMap (fun p =>
        ((((uniqueKeep df_e).map (fun c => pyStripChar ' ' c.pyStr) ++
            (uniqueKeep df_q).map (fun c => pyStripChar ' ' c.pyStr) ++
            (uniqueKeep df_a).map (fun c => pyStripChar ' ' c.pyStr)) ++
            (uniqueKeep (df_k.map (·.key))).map (fun c => pyStripChar ' ' c.pyStr)).filter
          (fun f => f ∈ p.2)).map (fun f => (p.1, f)))) := by
  unfold parse_k_fields
  rw [stripAll_eq, stripAll_eq, stripAll_eq, stripAll_eq]
  by_cases h1 : Cell.null ∈ uniqueKeep df_q
  · simp [h1]
  · by_cases h2 : Cell.null ∈ uniqueKeep df_e
    · simp [h1, h2]
    · by_cases h3 : Cell.null ∈ uniqueKeep df_a
      · simp [h1, h2, h3]
      · by_cases h4 : Cell.null ∈ uniqueKeep (df_k.map (·.key))
        · simp [h1, h2, h3, h4]
        · simp [h1, h2, h3, h4, List.append_assoc]

/-- C7: `parse_k_fields` is deterministic (a pure function applied twice to
equal inputs trivially agrees), and permuting the rows of the q/e/a tables -
and of the k-field table, provided its stripped keys are pairwise
distinct - leaves the returned edge set unchanged; with duplicate keys the
dict overwrite makes the edge set order-dependent, as the counterexample
shows. -/
theorem parse_k_fields_perm (df_k df_k2 : List KRow) (df_q df_q2 df_e df_e2 df_a df_a2 : List Cell)
    (hk : df_k.Perm df_k2) (hq : df_q.Perm df_q2) (he : df_e.Perm df_e2)
    (ha : df_a.Perm df_a2) (hnd : (df_k.map kRowKey).Nodup) :
    edgeFinset (parse_k_fields df_k df_q df_e df_a) =
      edgeFinset (parse_k_fields df_k2 df_q2 df_e2 df_a2) := by
  have hnd2 : (df_k2.map kRowKey).Nodup := ((hk.map kRowKey).nodup_iff).mp hnd
  rw [parse_k_fields_eq, parse_k_fields_eq, kFieldDict_nodup df_k hnd,
    kFieldDict_nodup df_k2 hnd2]
  have hcond : (Cell.null ∈ uniqueKeep df_q ∨ Cell.null ∈ uniqueKeep df_e ∨
      Cell.null ∈ uniqueKeep df_a ∨ Cell.null ∈ uniqueKeep (df_k.map (·.key))) ↔
      (Cell.null ∈ uniqueKeep df_q2 ∨ Cell.null ∈ uniqueKeep df_e2 ∨
      Cell.null ∈ uniqueKeep df_a2 ∨ Cell.null ∈ uniqueKeep (df_k2.map (·.key))) := by
    simp only [mem_uniqueKeep, List.mem_map, hq.mem_iff, he.mem_iff, ha.mem_iff, hk.mem_iff]
  by_cases hnull : Cell.null ∈ uniqueKeep df_q ∨ Cell.null ∈ uniqueKeep df_e ∨
      Cell.null ∈ uniqueKeep df_a ∨ Cell.null ∈ uniqueKeep (df_k.map (·.key))
  · rw [if_pos hnull, if_pos (hcond.mp hnull)]
  · rw [if_neg hnull, if_neg (fun h => hnull (hcond.mpr h))]
    simp only [edgeFinset, Option.map_some]
    refine congrArg some (Finset.ext fun a => ?_)
    simp only [List.mem_toFinset, List.mem_flatMap, List.mem_map, List.mem_filter,
      List.mem_append, mem_uniqueKeep, decide_eq_true_eq, hq.mem_iff, he.mem_iff,
      ha.mem_iff, hk.mem_iff]

/-- Witness for C7 on the spec's k-field scenario: rotating the q-field key
table leaves the edge set unchanged. -/
theorem parse_k_fields_perm_witness :
    edgeFinset (parse_k_fields [⟨Cell.str "k_1", Cell.str "q_5 + q_6 * 2"⟩]
        [Cell.str "q_5", Cell.str "q_6", Cell.str "q_7"] [] []) =
      edgeFinset (parse_k_fields [⟨Cell.str "k_1", Cell.str "q_5 + q_6 * 2"⟩]
        [Cell.str "q_6", Cell.str "q_7", Cell.str "q_5"] [] []) :=
  parse_k_fields_perm [⟨Cell.str "k_1", Cell.str "q_5 + q_6 * 2"⟩]
    [⟨Cell.str "k_1", Cell.str "q_5 + q_6 * 2"⟩]
    [Cell.str "q_5", Cell.str "q_6", Cell.str "q_7"]
    [Cell.str "q_6", Cell.str "q_7", Cell.str "q_5"] [] [] [] []
    (by decide) (by decide) (by decide) (by decide) (by decide)

end CF
